import Mathlib

/-!
Verification development for the RFQ normalizer/extractor repository
(`advanced_extractor.py`, `hybrid_name_extractor.py`).

Modelling conventions, used throughout:
* Python strings are modelled as `List Char` (`Str`); `str s` injects a Lean
  string literal.
* Python floats are modelled as exact rationals `ℚ`; decimal constants from the
  source are written with `mkRat` (e.g. `0.7` becomes `mkRat 7 10`).
* Python regular expressions are modelled by a small backtracking engine
  (`RE`, `mtch`, `reSearch`, `findIter`) that follows CPython `re` semantics:
  leftmost search position wins, alternation prefers the left branch, greedy
  repetition prefers longer matches, lazy repetition prefers shorter ones.
  Each pattern of the source is transcribed into an `RE` value next to a
  comment holding the original pattern text.
* The two external services (the OpenAI chat completion used by
  `extract_with_openai` / `llm_validate_candidates`, and the spaCy NER model)
  are modelled as parameters: an `LLMReply` describes one call's behaviour
  (client absent, transport error, or a textual reply), and the NER model is
  an optional function from a zone text to the person-entity spans found in it.
* The only exception a modelled code path can raise is the `AttributeError`
  produced by calling `.get` on a non-dict (`extract_all` on a non-object JSON
  reply); `extract_all` therefore returns an `Except`.
-/

attribute [local semireducible] Rat.mul Rat.add Rat.sub Rat.inv

abbrev Str := List Char

def str (s : String) : Str := s.data

/-- Lowercase/uppercase pairs for the alphabet the source manipulates:
ASCII letters plus the Spanish accented letters that appear in the source's
string constants and character classes. -/
def caseTable : List (Char × Char) :=
  [('a', 'A'), ('b', 'B'), ('c', 'C'), ('d', 'D'), ('e', 'E'), ('f', 'F'),
   ('g', 'G'), ('h', 'H'), ('i', 'I'), ('j', 'J'), ('k', 'K'), ('l', 'L'),
   ('m', 'M'), ('n', 'N'), ('o', 'O'), ('p', 'P'), ('q', 'Q'), ('r', 'R'),
   ('s', 'S'), ('t', 'T'), ('u', 'U'), ('v', 'V'), ('w', 'W'), ('x', 'X'),
   ('y', 'Y'), ('z', 'Z'),
   ('á', 'Á'), ('é', 'É'), ('í', 'Í'), ('ó', 'Ó'), ('ú', 'Ú'), ('ñ', 'Ñ'),
   ('ü', 'Ü')]

/-- Python `str.lower` restricted to the modelled alphabet. -/
def toLowerCh (c : Char) : Char :=
  match caseTable.find? (fun p => p.2 == c) with
  | some p => p.1
  | none => c

/-- Python `str.upper` (of a single char) restricted to the modelled alphabet. -/
def toUpperCh (c : Char) : Char :=
  match caseTable.find? (fun p => p.1 == c) with
  | some p => p.2
  | none => c

/-- A cased character (Python `str.isalpha` on the modelled alphabet). -/
def isLetterEs (c : Char) : Bool :=
  (caseTable.any (fun p => p.1 == c)) || (caseTable.any (fun p => p.2 == c))

/-- Python `str.isupper` of a single char, on the modelled alphabet. -/
def isUpperEs (c : Char) : Bool := caseTable.any (fun p => p.2 == c)

/-- The ASCII whitespace set of Python's `\s`, `str.split` and `str.strip`. -/
def pySpaceList : List Char := [' ', '\t', '\n', '\r', '\x0b', '\x0c']

/-- Python `\s` / `str.split` / `str.strip` whitespace (the ASCII set). -/
def isSpaceCh (c : Char) : Bool := pySpaceList.contains c

def isDigitCh (c : Char) : Bool := 48 ≤ c.toNat && c.toNat ≤ 57

/-- Python `\w` on the modelled alphabet: letters, digits, underscore. -/
def isWordCh (c : Char) : Bool := isLetterEs c || isDigitCh c || c == '_'

/-- Python `str.lower` on a string. -/
def lowerStr (s : Str) : Str := s.map toLowerCh

/-- Python substring containment `p in s`. -/
def isSubstr (p s : Str) : Bool :=
  (List.range (s.length + 1)).any (fun i => p.isPrefixOf (s.drop i))

/-- Python `str.startswith`. -/
def startsWith (p s : Str) : Bool := p.isPrefixOf s

/-- Python `str.strip()`. -/
def strip (s : Str) : Str :=
  ((s.dropWhile isSpaceCh).reverse.dropWhile isSpaceCh).reverse

/-- Helper for `splitWS`: accumulates the current word (reversed). -/
def splitWSGo : Str → Str → List Str
  | [], cur => if cur.isEmpty then [] else [cur.reverse]
  | c :: cs, cur =>
    if isSpaceCh c then
      if cur.isEmpty then splitWSGo cs [] else cur.reverse :: splitWSGo cs []
    else splitWSGo cs (c :: cur)

/-- Python `str.split()` (split on whitespace runs, dropping empty parts). -/
def splitWS (s : Str) : List Str := splitWSGo s []

/-- Python `' '.join(parts)`. -/
def joinSpace (parts : List Str) : Str := List.intercalate [' '] parts

/-- Helper for `titleStr`: the flag records whether the previous character was
cased. -/
def titleGo : Bool → Str → Str
  | _, [] => []
  | prev, c :: cs =>
    (if isLetterEs c then (if prev then toLowerCh c else toUpperCh c) else c)
      :: titleGo (isLetterEs c) cs

/-- Python `str.title()` on the modelled alphabet. -/
def titleStr (s : Str) : Str := titleGo false s

/-- Decimal digits of a natural number, as characters. -/
def natToChars (n : Nat) : Str := Nat.toDigits 10 n

/-- CPython `max(xs, key=f)` on a nonempty list: the first element attaining
the maximum (a later element replaces the current best only when strictly
greater). -/
def pymax1 {α : Type} (f : α → ℚ) (c : α) (cs : List α) : α :=
  cs.foldl (fun b x => if f b < f x then x else b) c

/-- `min` on rationals, via the decidable order (kernel-computable). -/
def qmin (a b : ℚ) : ℚ := if b < a then b else a

/-! ## A small backtracking regular-expression engine (CPython `re` semantics)

Group capture: every pattern in the source has at most one capturing group,
so the capture state is a single optional span `(start, end)`. -/

inductive RE where
  | eps : RE
  | cls : (Char → Bool) → RE
  | cat : RE → RE → RE
  | alt : RE → RE → RE
  | rep : RE → Nat → Option Nat → Bool → RE
  | grp : RE → RE
  | look : RE → RE
  | wordB : RE
  | lineEnd : Bool → RE

abbrev Caps := Option (Nat × Nat)

/-- Backtracking matcher in continuation-passing style.  `rest` is the
remaining input, `pos` the absolute position, `prev` the previous character
(for `\b`), `caps` the group-1 span.  The fuel decreases on every recursive
call (structural recursion, so the kernel can evaluate it); `searchAt` passes
fuel far larger than the call depth any of the transcribed patterns can reach
on its input. -/
def mtch : Nat → RE → Str → Nat → Option Char → Caps →
    (Str → Nat → Option Char → Caps → Option (Nat × Caps)) → Option (Nat × Caps)
  | 0, _, _, _, _, _, _ => none
  | fuel + 1, re, rest, pos, prev, caps, k =>
    match re with
    | .eps => k rest pos prev caps
    | .cls p =>
      match rest with
      | [] => none
      | c :: cs => if p c then k cs (pos + 1) (some c) caps else none
    | .cat a b =>
      mtch fuel a rest pos prev caps (fun r2 p2 pr2 c2 => mtch fuel b r2 p2 pr2 c2 k)
    | .alt a b =>
      match mtch fuel a rest pos prev caps k with
      | some r => some r
      | none => mtch fuel b rest pos prev caps k
    | .grp a =>
      mtch fuel a rest pos prev caps (fun r2 p2 pr2 _ => k r2 p2 pr2 (some (pos, p2)))
    | .look a =>
      match mtch fuel a rest pos prev caps (fun _ p2 _ c2 => some (p2, c2)) with
      | some _ => k rest pos prev caps
      | none => none
    | .wordB =>
      let wPrev := match prev with | some c => isWordCh c | none => false
      let wCur := match rest with | c :: _ => isWordCh c | [] => false
      if wPrev != wCur then k rest pos prev caps else none
    | .lineEnd ml =>
      let ok := match rest with
        | [] => true
        | c :: cs => c == '\n' && (ml || cs.isEmpty)
      if ok then k rest pos prev caps else none
    | .rep a lo hi g =>
      match lo with
      | lo' + 1 =>
        mtch fuel a rest pos prev caps (fun r2 p2 pr2 c2 =>
          mtch fuel (.rep a lo' (hi.map (· - 1)) g) r2 p2 pr2 c2 k)
      | 0 =>
        match hi with
        | some 0 => k rest pos prev caps
        | _ =>
          if g then
            match mtch fuel a rest pos prev caps (fun r2 p2 pr2 c2 =>
                mtch fuel (.rep a 0 (hi.map (· - 1)) g) r2 p2 pr2 c2 k) with
            | some r => some r
            | none => k rest pos prev caps
          else
            match k rest pos prev caps with
            | some r => some r
            | none => mtch fuel a rest pos prev caps (fun r2 p2 pr2 c2 =>
                mtch fuel (.rep a 0 (hi.map (· - 1)) g) r2 p2 pr2 c2 k)

/-- Attempt a match anchored at position `i` of `t`. -/
def searchAt (re : RE) (t : Str) (i : Nat) : Option (Nat × Caps) :=
  mtch (60 * t.length + 2000) re (t.drop i) i
    (if i = 0 then none else (t.drop (i - 1)).head?) none
    (fun _ p2 _ c2 => some (p2, c2))

/-- Scan positions left to right (CPython `re.search`): first position with a
match wins. -/
def searchFromAux (re : RE) (t : Str) : Nat → Nat → Option (Nat × Nat × Caps)
  | 0, _ => none
  | steps + 1, i =>
    match searchAt re t i with
    | some (e, c) => some (i, e, c)
    | none => searchFromAux re t steps (i + 1)

/-- A CPython match object: span of the whole match and text of groups 0/1. -/
structure PyMatch where
  mstart : Nat
  mstop : Nat
  whole : Str
  grp1 : Str
  deriving DecidableEq, Repr

def pySlice (t : Str) (a b : Nat) : Str := (t.drop a).take (b - a)

def toPyMatch (t : Str) (r : Nat × Nat × Caps) : PyMatch :=
  ⟨r.1, r.2.1, pySlice t r.1 r.2.1,
    match r.2.2 with
    | some (a, b) => pySlice t a b
    | none => []⟩

/-- CPython `re.search`. -/
def reSearch (re : RE) (t : Str) : Option PyMatch :=
  (searchFromAux re t (t.length + 1) 0).map (toPyMatch t)

/-- CPython `re.finditer`: non-overlapping leftmost matches, continuing after
each match's end (or one further for an empty match). -/
def findIterAux (re : RE) (t : Str) : Nat → Nat → List PyMatch
  | 0, _ => []
  | steps + 1, i =>
    if i > t.length then []
    else
      match searchFromAux re t (t.length + 1 - i) i with
      | none => []
      | some r =>
        toPyMatch t r ::
          findIterAux re t steps (if r.2.1 > r.1 then r.2.1 else r.2.1 + 1)

def findIter (re : RE) (t : Str) : List PyMatch :=
  findIterAux re t (t.length + 1) 0

/-! ### Pattern-building helpers -/

/-- Sequence a list of nodes. -/
def rcat (l : List RE) : RE := l.foldr RE.cat RE.eps

/-- Ordered alternation (first alternative preferred, as in CPython). -/
def ralt (hd : RE) (tl : List RE) : RE := tl.foldl RE.alt hd

/-- Case-sensitive literal. -/
def lit (s : String) : RE := rcat (s.data.map (fun c => RE.cls (fun x => x == c)))

/-- Case-insensitive literal (pattern compiled with `re.IGNORECASE`). -/
def litI (s : String) : RE :=
  rcat (s.data.map (fun c => RE.cls (fun x => toLowerCh x == toLowerCh c)))

def rstar (p : RE) : RE := .rep p 0 none true
def rplus (p : RE) : RE := .rep p 1 none true
def rplusLazy (p : RE) : RE := .rep p 1 none false
def ropt (p : RE) : RE := .rep p 0 (some 1) true
def reps (p : RE) (lo hi : Nat) : RE := .rep p lo (some hi) true
def repsMin (p : RE) (lo : Nat) : RE := .rep p lo none true

/-! ## Character classes appearing in the source's patterns -/

def wsC : RE := .cls isSpaceCh
def digitC : RE := .cls isDigitCh
def notNlC : RE := .cls (fun c => c != '\n')
def notDotC : RE := .cls (fun c => c != '.')
def notNlDotC : RE := .cls (fun c => c != '\n' && c != '.')
def notNlCrC : RE := .cls (fun c => c != '\n' && c != '\r')
def notWordC : RE := .cls (fun c => !isWordCh c)

def isAsciiAlpha (c : Char) : Bool :=
  ('a' ≤ c && c ≤ 'z') || ('A' ≤ c && c ≤ 'Z')

/-- `[A-ZÁÉÍÓÚÑÜ]` or `[a-záéíóúñü]` under `re.IGNORECASE`: any cased letter
of the modelled alphabet. -/
def letterEsC : RE := .cls isLetterEs

/-- `[a-záéíóúñü\s]` (or its uppercase twin) under `re.IGNORECASE`. -/
def letterEsWsC : RE := .cls (fun c => isLetterEs c || isSpaceCh c)

/-- `[A-Z]` under `re.IGNORECASE` (no accented letters). -/
def asciiAlphaC : RE := .cls isAsciiAlpha

/-- `[a-záéíóúñ]` (note: no `ü`) under `re.IGNORECASE`. -/
def advLowerC : RE :=
  .cls (fun c => isAsciiAlpha c || (str "áéíóúñÁÉÍÓÚÑ").contains c)

/-- `[a-záéíóúñ\s]` under `re.IGNORECASE`. -/
def advLowerWsC : RE :=
  .cls (fun c => isAsciiAlpha c || (str "áéíóúñÁÉÍÓÚÑ").contains c || isSpaceCh c)

/-- `[,\s]` -/
def commaWsC : RE := .cls (fun c => c == ',' || isSpaceCh c)

/-- `[:\s]` -/
def colonWsC : RE := .cls (fun c => c == ':' || isSpaceCh c)

/-! ## Data model (`advanced_extractor.py`) -/

/-- `ExtractionResult` dataclass: value, confidence in `[0,1]`, strategy tag,
optional raw matched text. -/
structure ExtractionResult where
  value : Str
  confidence : ℚ
  method : Str
  raw_match : Str := []
  deriving DecidableEq, Repr

/-- A gazetteer row of `_build_location_database` (dict insertion order is
preserved by the list order). -/
structure LocEntry where
  key : Str
  city : Str
  country : Str
  kind : Str
  port : Bool
  deriving DecidableEq, Repr

/-- `_build_location_database` -/
def location_db : List LocEntry :=
  [⟨str "valencia", str "Valencia", str "España", str "city", true⟩,
   ⟨str "madrid", str "Madrid", str "España", str "city", false⟩,
   ⟨str "barcelona", str "Barcelona", str "España", str "city", true⟩,
   ⟨str "bilbao", str "Bilbao", str "España", str "city", true⟩,
   ⟨str "sevilla", str "Sevilla", str "España", str "city", true⟩,
   ⟨str "malaga", str "Málaga", str "España", str "city", true⟩,
   ⟨str "santos", str "Santos", str "Brasil", str "port", true⟩,
   ⟨str "sao paulo", str "São Paulo", str "Brasil", str "city", false⟩,
   ⟨str "rio", str "Rio de Janeiro", str "Brasil", str "city", true⟩,
   ⟨str "rio de janeiro", str "Rio de Janeiro", str "Brasil", str "city", true⟩,
   ⟨str "hamburg", str "Hamburg", str "Alemania", str "port", true⟩,
   ⟨str "rotterdam", str "Rotterdam", str "Países Bajos", str "port", true⟩,
   ⟨str "antwerp", str "Antwerp", str "Bélgica", str "port", true⟩,
   ⟨str "genova", str "Génova", str "Italia", str "port", true⟩,
   ⟨str "miami", str "Miami", str "Estados Unidos", str "city", true⟩,
   ⟨str "new york", str "Nueva York", str "Estados Unidos", str "city", true⟩,
   ⟨str "los angeles", str "Los Ángeles", str "Estados Unidos", str "city", true⟩]

/-- The `"City, Country"` display string built for a matching entry. -/
def locDisplay (e : LocEntry) : Str := e.city ++ str ", " ++ e.country

/-- One step of `extract_location`'s gazetteer loop: if the key occurs in the
lowered text and its `len(key)/20` score strictly beats the best so far, the
entry replaces the best (so the first entry wins ties). -/
def dbScanStep (text_lower : Str) (acc : Option Str × ℚ) (e : LocEntry) :
    Option Str × ℚ :=
  if isSubstr e.key text_lower then
    let confidence : ℚ := mkRat e.key.length 20
    if acc.2 < confidence then (some (locDisplay e), confidence) else acc
  else acc

/-- The gazetteer loop of `extract_location` (strategy 1): best match and best
confidence over the whole table. -/
def dbScan (text_lower : Str) : Option Str × ℚ :=
  location_db.foldl (dbScanStep text_lower) (none, 0)

/-- Destination patterns of `extract_location` (strategy 2), in order:
`(?:hasta|al|a)\s+([^\.]+?)(?:\s+|\.)`,
`(?:to|towards?)\s+([^\.]+?)(?:\s+|\.)`,
`destino[^\w]*([^\.]+?)(?:\s+|\.)`. -/
def dest_patterns : List RE :=
  [rcat [ralt (lit "hasta") [lit "al", lit "a"], rplus wsC,
         .grp (rplusLazy notDotC), ralt (rplus wsC) [lit "."]],
   rcat [ralt (lit "to") [rcat [lit "toward", ropt (lit "s")]], rplus wsC,
         .grp (rplusLazy notDotC), ralt (rplus wsC) [lit "."]],
   rcat [lit "destino", rstar notWordC,
         .grp (rplusLazy notDotC), ralt (rplus wsC) [lit "."]]]

/-- Origin patterns of `extract_location` (strategy 2), in order:
`(?:desde|de|from)\s+([^\.]+?)(?:\s+hasta|\s+al|\s+to|\.)`,
`origen[^\w]*([^\.]+?)(?:\s+|\.)`. -/
def origin_patterns : List RE :=
  [rcat [ralt (lit "desde") [lit "de", lit "from"], rplus wsC,
         .grp (rplusLazy notDotC),
         ralt (rcat [rplus wsC, lit "hasta"])
           [rcat [rplus wsC, lit "al"], rcat [rplus wsC, lit "to"], lit "."]],
   rcat [lit "origen", rstar notWordC,
         .grp (rplusLazy notDotC), ralt (rplus wsC) [lit "."]]]

/-- First pattern of the list that matches (the loop`s `re.search` + return). -/
def firstSearch : List RE → Str → Option PyMatch
  | [], _ => none
  | p :: ps, t =>
    match reSearch p t with
    | some m => some m
    | none => firstSearch ps t

/-- `extract_location`: gazetteer lookup, then contextual patterns, else the
empty result. -/
def extract_location (text : Str) (is_destination : Bool) : ExtractionResult :=
  let text_lower := lowerStr text
  let best := dbScan text_lower
  match best.1 with
  | some best_match =>
    if mkRat 3 10 < best.2 then
      ⟨best_match, qmin best.2 (mkRat 9 10), str "database_lookup", []⟩
    else
      match firstSearch (if is_destination then dest_patterns else origin_patterns)
          text_lower with
      | some m =>
        ⟨titleStr (strip m.grp1), mkRat 6 10, str "contextual_pattern", m.whole⟩
      | none => ⟨[], 0, str "none", []⟩
  | none =>
    match firstSearch (if is_destination then dest_patterns else origin_patterns)
        text_lower with
    | some m =>
      ⟨titleStr (strip m.grp1), mkRat 6 10, str "contextual_pattern", m.whole⟩
    | none => ⟨[], 0, str "none", []⟩

/-- `_build_commodity_patterns`: ordered groups of patterns with their display
description.  Pattern texts:
group 1 `maquinarias?\s+pesadas?`, `maquinarias?\s+[^\.]*industrial`,
  `equipos?\s+pesados?`;
group 2 `textiles?`, `ropa`, `telas?`, `algodón`;
group 3 `repuestos?`, `spare\s+parts?`, `components?`, `piezas?`;
group 4 `electrónicos?`, `electronics?`, `dispositivos?`;
group 5 `alimentos?`, `food`, `comida`. -/
def commodity_patterns : List (List RE × Str) :=
  [([rcat [lit "maquinaria", ropt (lit "s"), rplus wsC, lit "pesada", ropt (lit "s")],
     rcat [lit "maquinaria", ropt (lit "s"), rplus wsC, rstar notDotC, lit "industrial"],
     rcat [lit "equipo", ropt (lit "s"), rplus wsC, lit "pesado", ropt (lit "s")]],
    str "Maquinaria pesada"),
   ([rcat [lit "textile", ropt (lit "s")], lit "ropa",
     rcat [lit "tela", ropt (lit "s")], lit "algodón"],
    str "Textiles"),
   ([rcat [lit "repuesto", ropt (lit "s")],
     rcat [lit "spare", rplus wsC, lit "part", ropt (lit "s")],
     rcat [lit "component", ropt (lit "s")],
     rcat [lit "pieza", ropt (lit "s")]],
    str "Repuestos"),
   ([rcat [lit "electrónico", ropt (lit "s")],
     rcat [lit "electronic", ropt (lit "s")],
     rcat [lit "dispositivo", ropt (lit "s")]],
    str "Electrónicos"),
   ([rcat [lit "alimento", ropt (lit "s")], lit "food", lit "comida"],
    str "Alimentos")]

/-- The inner loop of `extract_commodity`: first group any of whose patterns
matches. -/
def commodityScan : List (List RE × Str) → Str → Option Str
  | [], _ => none
  | (pats, desc) :: rest, tl =>
    if pats.any (fun p => (reSearch p tl).isSome) then some desc
    else commodityScan rest tl

/-- `extract_commodity` -/
def extract_commodity (text : Str) : ExtractionResult :=
  let text_lower := lowerStr text
  match commodityScan commodity_patterns text_lower with
  | some desc => ⟨desc, mkRat 8 10, str "pattern_match", []⟩
  | none =>
    if [str "maquina", str "equipo", str "machinery"].any
        (fun w => isSubstr w text_lower) then
      ⟨str "Maquinaria/Equipos", mkRat 5 10, str "keyword_fallback", []⟩
    else ⟨[], 0, str "none", []⟩

/-- `_build_weight_patterns`, in order:
`(\d+(?:\.\d+)?)\s*(?:kg|kilos?|kilogramos?)`,
`(\d+(?:\.\d+)?)\s*(?:ton|tons?|toneladas?)`,
`(\d+(?:\.\d+)?)\s*(?:lb|lbs|pounds?)`,
`total[^\d]*(\d+(?:\.\d+)?)\s*(?:kg|kilos?)`,
`peso[^\d]*(\d+(?:\.\d+)?)\s*(?:kg|kilos?)`,
`(\d+(?:\.\d+)?)\s*t(?:\s|$)`. -/
def numGrp : RE := .grp (rcat [rplus digitC, ropt (rcat [lit ".", rplus digitC])])

def weight_patterns : List RE :=
  [rcat [numGrp, rstar wsC,
         ralt (lit "kg") [rcat [lit "kilo", ropt (lit "s")],
                          rcat [lit "kilogramo", ropt (lit "s")]]],
   rcat [numGrp, rstar wsC,
         ralt (lit "ton") [rcat [lit "ton", ropt (lit "s")],
                           rcat [lit "tonelada", ropt (lit "s")]]],
   rcat [numGrp, rstar wsC,
         ralt (lit "lb") [lit "lbs", rcat [lit "pound", ropt (lit "s")]]],
   rcat [lit "total", rstar (.cls (fun c => !isDigitCh c)), numGrp, rstar wsC,
         ralt (lit "kg") [rcat [lit "kilo", ropt (lit "s")]]],
   rcat [lit "peso", rstar (.cls (fun c => !isDigitCh c)), numGrp, rstar wsC,
         ralt (lit "kg") [rcat [lit "kilo", ropt (lit "s")]]],
   rcat [numGrp, rstar wsC, lit "t", ralt wsC [.lineEnd false]]]

/-- Value of a digit character (`'0'.toNat = 48`). -/
def digitVal (c : Char) : Nat := c.toNat - 48

def digitsToNat (s : Str) : Nat := s.foldl (fun n c => n * 10 + digitVal c) 0

/-- Python `float(...)` restricted to the numeric literals the weight group
regex can capture (`digits` or `digits.digits`); anything else is a parse
failure (the `ValueError` branch that drops the candidate). -/
def parseDecQ (s : Str) : Option ℚ :=
  match s.splitOn '.' with
  | [ip] =>
    if !ip.isEmpty && ip.all isDigitCh then some (mkRat (digitsToNat ip) 1)
    else none
  | [ip, fp] =>
    if !ip.isEmpty && ip.all isDigitCh && !fp.isEmpty && fp.all isDigitCh then
      some (mkRat (digitsToNat (ip ++ fp)) (10 ^ fp.length))
    else none
  | _ => none

/-- One collected weight mention: kilogram value, matched text, confidence. -/
structure WCand where
  value_kg : ℚ
  original : Str
  confidence : ℚ
  deriving DecidableEq, Repr

/-- Unit conversion of `extract_weight`: tons ×1000 when the matched text
contains `ton` or `t ` or ends in `t`; pounds ×0.453592; else kilograms. -/
def convertKg (value : ℚ) (unit : Str) : ℚ :=
  if isSubstr (str "ton") unit || isSubstr (str "t ") unit
      || unit.reverse.head? == some 't' then
    value * 1000
  else if isSubstr (str "lb") unit || isSubstr (str "pound") unit then
    value * mkRat 453592 1000000
  else value

/-- Candidate built from one regex match (`None` models the dropped
`ValueError` candidate). -/
def weightCandOfMatch (m : PyMatch) : Option WCand :=
  (parseDecQ m.grp1).map (fun v =>
    let unit := lowerStr m.whole
    ⟨convertKg v unit, m.whole,
     if isSubstr (str "total") unit || isSubstr (str "peso") unit then mkRat 9 10
     else mkRat 7 10⟩)

/-- The collection loop of `extract_weight`: all matches of all patterns, in
pattern order then text order. -/
def collect_weights (text : Str) : List WCand :=
  let text_lower := lowerStr text
  weight_patterns.flatMap (fun p => (findIter p text_lower).filterMap weightCandOfMatch)

/-- Python' s `f"{x:.0f}"` of a nonnegative value: round half to even, print
as a decimal integer. -/
def roundHalfEven (q : ℚ) : Int :=
  let f := q.floor
  let r := q - mkRat f 1
  if r < mkRat 1 2 then f
  else if mkRat 1 2 < r then f + 1
  else if f % 2 = 0 then f else f + 1

def fmtKg (q : ℚ) : Str :=
  (if (roundHalfEven q) < 0 then '-' :: natToChars (roundHalfEven q).natAbs
   else natToChars (roundHalfEven q).natAbs) ++ str " kg"

/-- The reconciliation stage of `extract_weight` over the collected
candidates. -/
def reconcile_weights (weights : List WCand) : ExtractionResult :=
  match weights with
  | [] => ⟨[], 0, str "none", []⟩
  | w0 :: rest =>
    let total_weights := (w0 :: rest).filter (fun w => mkRat 9 10 ≤ w.confidence)
    match total_weights with
    | t0 :: ts =>
      let best_weight := pymax1 (fun w => w.confidence) t0 ts
      ⟨fmtKg best_weight.value_kg, best_weight.confidence, str "explicit_total", []⟩
    | [] =>
      if rest.isEmpty then
        ⟨fmtKg w0.value_kg, w0.confidence, str "single_weight", []⟩
      else
        let significant_weights := (w0 :: rest).filter (fun w => (100 : ℚ) ≤ w.value_kg)
        match significant_weights with
        | s0 :: ss =>
          let best_weight := pymax1 (fun w => w.value_kg) s0 ss
          ⟨fmtKg best_weight.value_kg, mkRat 8 10, str "largest_weight", []⟩
        | [] =>
          let total_kg := ((w0 :: rest).map (fun w => w.value_kg)).sum
          let avg_confidence :=
            (((w0 :: rest).map (fun w => w.confidence)).sum) / mkRat (rest.length + 1) 1
          ⟨fmtKg total_kg, avg_confidence, str "small_weights_sum", []⟩

/-- `extract_weight` -/
def extract_weight (text : Str) : ExtractionResult :=
  reconcile_weights (collect_weights text)

/-- The ordered `(keyword, confidence)` table of `extract_urgency`. -/
def urgent_indicators : List (Str × ℚ) :=
  [(str "muy urgente", mkRat 95 100),
   (str "urgente", mkRat 85 100),
   (str "urgent", mkRat 85 100),
   (str "asap", mkRat 9 10),
   (str "rapido", mkRat 7 10),
   (str "fast", mkRat 7 10),
   (str "priority", mkRat 8 10),
   (str "expedite", mkRat 8 10)]

/-- `extract_urgency` -/
def extract_urgency (text : Str) : ExtractionResult :=
  let text_lower := lowerStr text
  match urgent_indicators.find? (fun p => isSubstr p.1 text_lower) with
  | some p => ⟨str "urgent", p.2, str "keyword_match", []⟩
  | none => ⟨str "normal", mkRat 8 10, str "default", []⟩

/-- `_clean_and_validate_name`'s exclusion list. -/
def exclude_words_adv : List Str :=
  [str "días", str "kg", str "euro", str "precio", str "toneladas", str "total",
   str "aproximadamente", str "presupuesto", str "cotización", str "maquinas",
   str "envio", str "urgente", str "seguro", str "fabrica", str "cliente",
   str "esperando", str "whatsapp", str "tel", str "email", str "sl",
   str "ltd", str "sa", str "inc", str "corp", str "company", str "empresa",
   str "logistics"]

/-- `_clean_and_validate_name`: whitespace-normalize, then reject on excluded
substrings, length bounds, digit count, special characters or no letter;
accepted names are returned in title case. -/
def clean_and_validate_name (raw_name : Str) : Str :=
  if raw_name.isEmpty then []
  else
    let name := joinSpace (splitWS raw_name)
    let name_lower := lowerStr name
    if exclude_words_adv.any (fun w => isSubstr w name_lower) then []
    else if 40 < name.length then []
    else if name.length < 3 then []
    else if 2 < (name.filter isDigitCh).length then []
    else if name.any (fun c => !(isWordCh c || isSpaceCh c)) then []
    else if !(name.any isLetterEs) then []
    else titleStr name

/-- `_extract_name_fallback`'s pattern table (compiled with
`re.IGNORECASE | re.MULTILINE`), in order:
`saludos[,\s]*([^\n\r]+?)(?:\s*WhatsApp|\s*Tel|\s*$|\n)` 0.9,
`atentamente[,\s]*([^\n\r]+?)(?:\s*WhatsApp|\s*Tel|\s*$|\n)` 0.9,
`gracias[,\s]*([^\n\r]+?)(?:\s*WhatsApp|\s*Tel|\s*$|\n)` 0.85,
`([A-Z][a-záéíóúñ]+\s+[A-Z][a-záéíóúñ]+)(?:\s+WhatsApp|\s+Tel|\s*\n)` 0.8,
`nombre[:\s]*([A-Z][a-záéíóúñ\s]+?)(?:\s*WhatsApp|\s*Tel|\s*\n)` 0.8,
`contacto[:\s]*([A-Z][a-záéíóúñ\s]+?)(?:\s*WhatsApp|\s*Tel|\s*\n)` 0.8,
`([A-Z][a-záéíóúñ]+\s+[A-Z][a-záéíóúñ]+)` 0.6,
`([A-ZÁÉÍÓÚÑ]{2,}\s+[A-ZÁÉÍÓÚÑ]{2,})` 0.5. -/
def sigTail : RE :=
  ralt (rcat [rstar wsC, litI "WhatsApp"])
    [rcat [rstar wsC, litI "Tel"], rcat [rstar wsC, .lineEnd true], lit "\n"]

def twoCapWords : RE :=
  .grp (rcat [asciiAlphaC, rplus advLowerC, rplus wsC, asciiAlphaC, rplus advLowerC])

def adv_name_patterns : List (RE × ℚ) :=
  [(rcat [litI "saludos", rstar commaWsC, .grp (rplusLazy notNlCrC), sigTail],
    mkRat 9 10),
   (rcat [litI "atentamente", rstar commaWsC, .grp (rplusLazy notNlCrC), sigTail],
    mkRat 9 10),
   (rcat [litI "gracias", rstar commaWsC, .grp (rplusLazy notNlCrC), sigTail],
    mkRat 85 100),
   (rcat [twoCapWords,
          ralt (rcat [rplus wsC, litI "WhatsApp"])
            [rcat [rplus wsC, litI "Tel"], rcat [rstar wsC, lit "\n"]]],
    mkRat 8 10),
   (rcat [litI "nombre", rstar colonWsC, .grp (rcat [asciiAlphaC, rplusLazy advLowerWsC]),
          ralt (rcat [rstar wsC, litI "WhatsApp"])
            [rcat [rstar wsC, litI "Tel"], rcat [rstar wsC, lit "\n"]]],
    mkRat 8 10),
   (rcat [litI "contacto", rstar colonWsC, .grp (rcat [asciiAlphaC, rplusLazy advLowerWsC]),
          ralt (rcat [rstar wsC, litI "WhatsApp"])
            [rcat [rstar wsC, litI "Tel"], rcat [rstar wsC, lit "\n"]]],
    mkRat 8 10),
   (twoCapWords, mkRat 6 10),
   (.grp (rcat [repsMin advLowerC 2, rplus wsC, repsMin advLowerC 2]), mkRat 5 10)]

/-- The loop of `_extract_name_fallback`: first pattern whose match also
passes `_clean_and_validate_name`; a matching but invalid candidate falls
through to the next pattern. -/
def nameFallbackGo : List (RE × ℚ) → Str → ExtractionResult
  | [], _ => ⟨[], 0, str "no_name_found", []⟩
  | (p, confidence) :: ps, text =>
    match reSearch p text with
    | some m =>
      let cleaned_name := clean_and_validate_name (strip m.grp1)
      if cleaned_name.isEmpty then nameFallbackGo ps text
      else ⟨cleaned_name, confidence, str "fallback_regex", []⟩
    | none => nameFallbackGo ps text

/-- `_extract_name_fallback` -/
def extract_name_fallback (text : Str) : ExtractionResult :=
  nameFallbackGo adv_name_patterns text

/-! ## The hybrid name pipeline (`hybrid_name_extractor.py`) -/

/-- `NameCandidate` dataclass. -/
structure NameCandidate where
  text : Str
  confidence : ℚ
  method : Str
  zone_type : Str
  context : Str
  deriving DecidableEq, Repr

/-- A detected zone (the dicts built by `detect_name_zones`). -/
structure Zone where
  ztext : Str
  ztype : Str
  zconfidence : ℚ
  zstart : Nat
  zstop : Nat
  deriving DecidableEq, Repr

/-- `detect_name_zones`' pattern table (compiled with
`re.IGNORECASE | re.MULTILINE`): `(pattern, type, confidence)`.  Pattern texts
are listed in the comments. -/
def zone_patterns : List (RE × Str × ℚ) :=
  [ -- (saludos[^\n]*(?:\n[^\n]*){0,3})
   (.grp (rcat [litI "saludos", rstar notNlC, reps (rcat [lit "\n", rstar notNlC]) 0 3]),
    str "signature_saludos", mkRat 9 10),
   -- (atentamente[^\n]*(?:\n[^\n]*){0,3})
   (.grp (rcat [litI "atentamente", rstar notNlC, reps (rcat [lit "\n", rstar notNlC]) 0 3]),
    str "signature_atentamente", mkRat 9 10),
   -- (gracias[^\n]*(?:\n[^\n]*){0,3})
   (.grp (rcat [litI "gracias", rstar notNlC, reps (rcat [lit "\n", rstar notNlC]) 0 3]),
    str "signature_gracias", mkRat 8 10),
   -- (cordialmente[^\n]*(?:\n[^\n]*){0,3})
   (.grp (rcat [litI "cordialmente", rstar notNlC, reps (rcat [lit "\n", rstar notNlC]) 0 3]),
    str "signature_cordialmente", mkRat 9 10),
   -- (contacto?[:\s]+[^\n.]{5,50})
   (.grp (rcat [litI "contact", ropt (litI "o"), rplus colonWsC, reps notNlDotC 5 50]),
    str "contact_instruction", mkRat 8 10),
   -- (favor\s+de\s+contactar[^\n.]{5,50})
   (.grp (rcat [litI "favor", rplus wsC, litI "de", rplus wsC, litI "contactar",
                reps notNlDotC 5 50]),
    str "contact_request", mkRat 8 10),
   -- (comunicarse\s+con[^\n.]{5,50})
   (.grp (rcat [litI "comunicarse", rplus wsC, litI "con", reps notNlDotC 5 50]),
    str "contact_request", mkRat 8 10),
   -- (llamar\s+a[^\n.]{5,50})
   (.grp (rcat [litI "llamar", rplus wsC, litI "a", reps notNlDotC 5 50]),
    str "contact_request", mkRat 7 10),
   -- (dirigirse\s+a[^\n.]{5,50})
   (.grp (rcat [litI "dirigirse", rplus wsC, litI "a", reps notNlDotC 5 50]),
    str "contact_request", mkRat 7 10),
   -- (soy\s+[^\n.]{3,30})
   (.grp (rcat [litI "soy", rplus wsC, reps notNlDotC 3 30]),
    str "self_introduction", mkRat 7 10),
   -- (me\s+llamo\s+[^\n.]{3,30})
   (.grp (rcat [litI "me", rplus wsC, litI "llamo", rplus wsC, reps notNlDotC 3 30]),
    str "self_introduction", mkRat 8 10),
   -- (mi\s+nombre\s+es\s+[^\n.]{3,30})
   (.grp (rcat [litI "mi", rplus wsC, litI "nombre", rplus wsC, litI "es", rplus wsC,
                reps notNlDotC 3 30]),
    str "self_introduction", mkRat 8 10),
   -- ([A-ZÁÉÍÓÚÑÜ][a-záéíóúñü\s]{5,40}\s+(?:se\s+encargará|manejará|atenderá))
   (.grp (rcat [letterEsC, reps letterEsWsC 5 40, rplus wsC,
                ralt (rcat [litI "se", rplus wsC, litI "encargará"])
                  [litI "manejará", litI "atenderá"]]),
    str "delegation", mkRat 6 10),
   -- (\n[A-ZÁÉÍÓÚÑÜ][a-záéíóúñü\s]{5,40}\n(?:[^\n]*(?:tel|email|whatsapp|phone)[^\n]*\n?){1,3})
   (.grp (rcat [lit "\n", letterEsC, reps letterEsWsC 5 40, lit "\n",
                reps (rcat [rstar notNlC,
                            ralt (litI "tel") [litI "email", litI "whatsapp", litI "phone"],
                            rstar notNlC, ropt (lit "\n")]) 1 3]),
    str "email_signature", mkRat 6 10)]

/-- Insert a zone into a list sorted descending by `(confidence, start)`,
after all entries with a key at least as large (so the overall sort is stable,
like CPython's `list.sort(key=..., reverse=True)`). -/
def insZone (x : Zone) : List Zone → List Zone
  | [] => [x]
  | y :: ys =>
    if y.zconfidence < x.zconfidence
        || (y.zconfidence == x.zconfidence && y.zstart < x.zstart) then
      x :: y :: ys
    else y :: insZone x ys

def sortZones (l : List Zone) : List Zone := l.foldl (fun acc x => insZone x acc) []

/-- `detect_name_zones`: all matches of all zone patterns whose stripped text
is longer than 3 characters, sorted by `(confidence, start)` descending. -/
def detect_name_zones (text : Str) : List Zone :=
  let zones := zone_patterns.flatMap (fun pt =>
    (findIter pt.1 text).filterMap (fun m =>
      let zone_text := strip m.grp1
      if !zone_text.isEmpty && 3 < zone_text.length then
        some ⟨zone_text, pt.2.1, pt.2.2, m.mstart, m.mstop⟩
      else none))
  sortZones zones

/-- `_is_valid_name_candidate`'s exclusion set (iterated as written). -/
def exclude_words_hyb : List Str :=
  [str "días", str "kg", str "euro", str "precio", str "toneladas", str "total",
   str "aproximadamente", str "presupuesto", str "cotización", str "maquinas",
   str "envio", str "urgente", str "seguro", str "fabrica", str "cliente",
   str "esperando", str "whatsapp", str "tel", str "email", str "company",
   str "empresa", str "logistics", str "transporte", str "valencia",
   str "madrid", str "barcelona", str "santos", str "brasil", str "spain",
   str "españa", str "mañana", str "hoy", str "ayer", str "gracias",
   str "saludos", str "atentamente", str "contacto", str "favor", str "llamar",
   str "phone", str "móvil", str "celular"]

def headIsUpper (w : Str) : Bool :=
  match w with
  | [] => false
  | c :: _ => isUpperEs c

/-- `_is_valid_name_candidate`: length in `[3,60]`, no excluded substring of
the lowercase form, at least 80% letters, first character and every word's
first character uppercase, 1–4 words. -/
def is_valid_name_candidate (name : Str) : Bool :=
  if name.isEmpty || name.length < 3 || 60 < name.length then false
  else
    let name_lower := lowerStr name
    if exclude_words_hyb.any (fun w => isSubstr w name_lower) then false
    else if mkRat (name.filter isLetterEs).length 1
        < mkRat name.length 1 * mkRat 8 10 then false
    else if !headIsUpper name then false
    else
      let words := splitWS name
      if words.length < 1 || 4 < words.length then false
      else if !(words.all headIsUpper) then false
      else true

/-- `extract_regex_fallback_candidates`' pattern table (compiled with
`re.IGNORECASE`), in order:
`(?:saludos|atentamente|gracias|cordialmente)[,\s]*(NAME)` 0.9,
`contacto?[:\s]+(NAME)` 0.8,
`favor\s+de\s+contactar\s+a?\s*(NAME)` 0.8,
`comunicarse\s+con\s+(NAME)` 0.8,
`(?:soy|me\s+llamo|mi\s+nombre\s+es)\s+(NAME)` 0.8,
`(NAME)(?=\s*(?:whatsapp|tel|email|phone|\+\d))` 0.7,
`\b([A-ZÁÉÍÓÚÑÜ][a-záéíóúñü]+\s+[A-ZÁÉÍÓÚÑÜ][a-záéíóúñü]+)\b` 0.5,
where `NAME` is
`[A-ZÁÉÍÓÚÑÜ][a-záéíóúñü]+(?:\s+[A-ZÁÉÍÓÚÑÜ][a-záéíóúñü]+){1,3}`. -/
def hybNameGrp : RE :=
  .grp (rcat [letterEsC, rplus letterEsC,
              reps (rcat [rplus wsC, letterEsC, rplus letterEsC]) 1 3])

def hyb_name_patterns : List (RE × ℚ) :=
  [(rcat [ralt (litI "saludos") [litI "atentamente", litI "gracias", litI "cordialmente"],
          rstar commaWsC, hybNameGrp], mkRat 9 10),
   (rcat [litI "contact", ropt (litI "o"), rplus colonWsC, hybNameGrp], mkRat 8 10),
   (rcat [litI "favor", rplus wsC, litI "de", rplus wsC, litI "contactar", rplus wsC,
          ropt (litI "a"), rstar wsC, hybNameGrp], mkRat 8 10),
   (rcat [litI "comunicarse", rplus wsC, litI "con", rplus wsC, hybNameGrp], mkRat 8 10),
   (rcat [ralt (litI "soy")
            [rcat [litI "me", rplus wsC, litI "llamo"],
             rcat [litI "mi", rplus wsC, litI "nombre", rplus wsC, litI "es"]],
          rplus wsC, hybNameGrp], mkRat 8 10),
   (rcat [hybNameGrp,
          .look (rcat [rstar wsC,
                       ralt (litI "whatsapp")
                         [litI "tel", litI "email", litI "phone",
                          rcat [lit "+", digitC]]])], mkRat 7 10),
   (rcat [.wordB,
          .grp (rcat [letterEsC, rplus letterEsC, rplus wsC, letterEsC, rplus letterEsC]),
          .wordB], mkRat 5 10)]

/-- `extract_regex_fallback_candidates`: every match of every pattern inside
every zone, validated, with confidence `zone.confidence × pattern.confidence`. -/
def extract_regex_fallback_candidates (zones : List Zone) : List NameCandidate :=
  zones.flatMap (fun z =>
    hyb_name_patterns.flatMap (fun pp =>
      (findIter pp.1 z.ztext).filterMap (fun m =>
        let name_text := strip m.grp1
        if is_valid_name_candidate name_text then
          some ⟨name_text, z.zconfidence * pp.2, str "zone_regex", z.ztype, z.ztext⟩
        else none)))

/-- `extract_ner_candidates`: with an NER model, the model's person-entity
spans in each zone (the model is given as the function from a zone's text to
those spans), validated, at confidence `zone.confidence × 0.9`; without a
model, the regex fallback. -/
def extract_ner_candidates (nlp : Option (Str → List Str)) (zones : List Zone) :
    List NameCandidate :=
  match nlp with
  | none => extract_regex_fallback_candidates zones
  | some ents => zones.flatMap (fun z =>
      (ents z.ztext).filterMap (fun ent =>
        let name_text := strip ent
        if is_valid_name_candidate name_text then
          some ⟨name_text, z.zconfidence * mkRat 9 10, str "ner", z.ztype, z.ztext⟩
        else none))

/-- Behaviour of one external LLM chat-completion call: no client configured,
a transport error raised by the call, or a reply whose message content is the
given text. -/
inductive LLMReply where
  | absent : LLMReply
  | errors : LLMReply
  | reply : Str → LLMReply
  deriving DecidableEq

/-- `llm_validate_candidates`: with no client, the best candidate's text
unconditionally; with a reply, the (stripped) reply when it is nonempty, not
`"NONE"` and passes the validator, else the best candidate above confidence
0.5; on a call error, the best candidate above confidence 0.5. -/
def llm_validate_candidates (llm : LLMReply) (candidates : List NameCandidate) :
    Option Str :=
  match candidates with
  | [] => none
  | c0 :: cs =>
    match llm with
    | .absent => some (pymax1 (fun c => c.confidence) c0 cs).text
    | .errors =>
      let best_candidate := pymax1 (fun c => c.confidence) c0 cs
      if mkRat 1 2 < best_candidate.confidence then some best_candidate.text else none
    | .reply s =>
      -- the prompt list is built from `candidates[:5]`, which is nonempty
      -- here, so `if not candidate_list: return None` does not fire
      if ((c0 :: cs).take 5).isEmpty then none
      else
        let result := strip s
        if !result.isEmpty && result != str "NONE" && is_valid_name_candidate result then
          some result
        else
          let best_candidate := pymax1 (fun c => c.confidence) c0 cs
          if mkRat 1 2 < best_candidate.confidence then some best_candidate.text else none

/-- The result dict of `extract_name` (the `debug` entry, which no caller in
the core consumes, is omitted). -/
structure NameOut where
  name : Str
  confidence : ℚ
  method : Str
  deriving DecidableEq, Repr

/-- The external collaborators of one full extraction: the field-extraction
LLM call, the optional NER model, and the name-validation LLM call. -/
structure Env where
  fieldLLM : LLMReply
  ner : Option (Str → List Str)
  nameLLM : LLMReply

/-- The candidate list the pipeline builds for a text (stage 1 + stage 2). -/
def nameCandidatesOf (env : Env) (text : Str) : List NameCandidate :=
  extract_ner_candidates env.ner (detect_name_zones text)

/-- `extract_name` (the three-stage pipeline). -/
def extract_name (env : Env) (text : Str) : NameOut :=
  let zones := detect_name_zones text
  if zones.isEmpty then ⟨[], 0, str "no_zones"⟩
  else
    match extract_ner_candidates env.ner zones with
    | [] => ⟨[], 0, str "no_candidates"⟩
    | c0 :: cs =>
      match llm_validate_candidates env.nameLLM (c0 :: cs) with
      | some final_name =>
        if final_name.isEmpty then ⟨[], 0, str "validation_failed"⟩
        else
          let best_candidate := pymax1 (fun c => c.confidence) c0 cs
          ⟨final_name, qmin (best_candidate.confidence * mkRat 11 10) 1,
           str "hybrid_" ++ best_candidate.method⟩
      | none => ⟨[], 0, str "validation_failed"⟩

/-- `_extract_name_hybrid`: runs the pipeline; a nonempty name is passed
through with its confidence and a `hybrid_`-prefixed method.  (The `except`
branch of the source catches exceptions from the import or the pipeline;
the modelled pipeline is total, so that branch is unreachable here.) -/
def extract_name_hybrid (env : Env) (text : Str) : ExtractionResult :=
  let result := extract_name env text
  if !result.name.isEmpty then
    ⟨result.name, result.confidence, str "hybrid_" ++ result.method, []⟩
  else ⟨[], 0, str "hybrid_failed", []⟩

/-- `extract_contact_info`'s contact patterns (no flags), in order:
`(\+\d{1,3}\s+\d{3}\s+\d{3}\s+\d{3})` 0.9,
`([a-zA-Z0-9._%+-]+@[a-zA-Z0-9.-]+\.[a-zA-Z]{2,})` 0.9,
`WhatsApp[:\s]*(\+?\d[\d\s]+)` 0.85,
`Tel[:\s]*(\+?\d[\d\s\-]+)` 0.8. -/
def emailLocalC : RE :=
  .cls (fun c => isAsciiAlpha c || isDigitCh c || (str "._%+-").contains c)

def emailDomC : RE := .cls (fun c => isAsciiAlpha c || isDigitCh c || c == '.' || c == '-')

def digitWsC : RE := .cls (fun c => isDigitCh c || isSpaceCh c)

def digitWsDashC : RE := .cls (fun c => isDigitCh c || isSpaceCh c || c == '-')

def contact_patterns : List (RE × ℚ) :=
  [(.grp (rcat [lit "+", reps digitC 1 3, rplus wsC, reps digitC 3 3, rplus wsC,
                reps digitC 3 3, rplus wsC, reps digitC 3 3]), mkRat 9 10),
   (.grp (rcat [rplus emailLocalC, lit "@", rplus emailDomC, lit ".",
                repsMin asciiAlphaC 2]), mkRat 9 10),
   (rcat [lit "WhatsApp", rstar colonWsC,
          .grp (rcat [ropt (lit "+"), digitC, rplus digitWsC])], mkRat 85 100),
   (rcat [lit "Tel", rstar colonWsC,
          .grp (rcat [ropt (lit "+"), digitC, rplus digitWsDashC])], mkRat 8 10)]

/-- The contact-handle loop of `extract_contact_info`: first matching pattern
wins. -/
def contactScan : List (RE × ℚ) → Str → ExtractionResult
  | [], _ => ⟨[], 0, str "none", []⟩
  | (p, confidence) :: ps, text =>
    match reSearch p text with
    | some m => ⟨m.grp1, confidence, str "regex_pattern", []⟩
    | none => contactScan ps text

/-- `extract_contact_info`: hybrid name extraction with regex fallback, and
the independent contact-handle scan. -/
def extract_contact_info (env : Env) (text : Str) :
    ExtractionResult × ExtractionResult :=
  let name0 := extract_name_hybrid env text
  let name_result := if name0.value.isEmpty then extract_name_fallback text else name0
  (name_result, contactScan contact_patterns text)

/-! ## JSON values and `json.loads` (`extract_with_openai`) -/

/-- A parsed JSON value (`json.loads` result).  Numbers are exact rationals
(Python distinguishes int/float; the distinction is irrelevant to the modelled
code, which only tests truthiness).  `NaN`/`Infinity` extensions are not
modelled. -/
inductive Json where
  | null : Json
  | jbool : Bool → Json
  | num : ℚ → Json
  | jstr : Str → Json
  | arr : List Json → Json
  | obj : List (Str × Json) → Json

/-- The four whitespace characters `json.loads` skips between tokens. -/
def jsonWsList : List Char := [' ', '\t', '\n', '\r']

/-- JSON whitespace. -/
def jsonSkipWs (s : Str) : Str := s.dropWhile jsonWsList.contains

/-- Hex-digit value, by ASCII code point (`0` = 48, `a` = 97, `A` = 65). -/
def hexVal (c : Char) : Option Nat :=
  let n := c.toNat
  if 48 ≤ n && n ≤ 57 then some (n - 48)
  else if 97 ≤ n && n ≤ 102 then some (n - 87)
  else if 65 ≤ n && n ≤ 70 then some (n - 55)
  else none

def parseHex4 (s : Str) : Option (Nat × Str) :=
  match s with
  | a :: b :: c :: d :: rest =>
    match hexVal a, hexVal b, hexVal c, hexVal d with
    | some x, some y, some z, some w => some (((x * 16 + y) * 16 + z) * 16 + w, rest)
    | _, _, _, _ => none
  | _ => none

/-- JSON string body (after the opening quote).  Surrogate-pair recombination
is not modelled (no claim depends on it). -/
def parseJStr : Nat → Str → Option (Str × Str)
  | 0, _ => none
  | fuel + 1, s =>
    match s with
    | [] => none
    | c :: cs =>
      if c == '"' then some ([], cs)
      else if c == '\\' then
        match cs with
        | 'n' :: cs2 => (parseJStr fuel cs2).map (fun r => ('\n' :: r.1, r.2))
        | 't' :: cs2 => (parseJStr fuel cs2).map (fun r => ('\t' :: r.1, r.2))
        | 'r' :: cs2 => (parseJStr fuel cs2).map (fun r => ('\r' :: r.1, r.2))
        | 'b' :: cs2 => (parseJStr fuel cs2).map (fun r => ('\x08' :: r.1, r.2))
        | 'f' :: cs2 => (parseJStr fuel cs2).map (fun r => ('\x0c' :: r.1, r.2))
        | '/' :: cs2 => (parseJStr fuel cs2).map (fun r => ('/' :: r.1, r.2))
        | '\\' :: cs2 => (parseJStr fuel cs2).map (fun r => ('\\' :: r.1, r.2))
        | '"' :: cs2 => (parseJStr fuel cs2).map (fun r => ('"' :: r.1, r.2))
        | 'u' :: cs2 =>
          match parseHex4 cs2 with
          | some (n, cs3) => (parseJStr fuel cs3).map (fun r => (Char.ofNat n :: r.1, r.2))
          | none => none
        | _ => none
      else if c.toNat < 32 then none
      else (parseJStr fuel cs).map (fun r => (c :: r.1, r.2))

def pow10 (e : Int) : ℚ :=
  if 0 ≤ e then mkRat ((10 : Nat) ^ e.toNat) 1 else mkRat 1 ((10 : Nat) ^ (-e).toNat)

/-- JSON number: `-?(0|[1-9][0-9]*)(\.[0-9]+)?([eE][+-]?[0-9]+)?`. -/
def parseJNum (s : Str) : Option (ℚ × Str) :=
  let sgn : ℚ := if s.head? == some '-' then -1 else 1
  let s1 := if s.head? == some '-' then s.drop 1 else s
  let ip := s1.takeWhile isDigitCh
  let s2 := s1.drop ip.length
  if ip.isEmpty then none
  else if 1 < ip.length && ip.head? == some '0' then none
  else
    let hasFrac := s2.head? == some '.'
    let frBody := if hasFrac then (s2.drop 1).takeWhile isDigitCh else []
    let s3 := if hasFrac then (s2.drop 1).drop frBody.length else s2
    if hasFrac && frBody.isEmpty then none
    else
      let base : ℚ := sgn * mkRat (digitsToNat (ip ++ frBody)) (10 ^ frBody.length)
      let hasExp := s3.head? == some 'e' || s3.head? == some 'E'
      if !hasExp then some (base, s3)
      else
        let s4 := s3.drop 1
        let esgn : Int := if s4.head? == some '-' then -1 else 1
        let s5 := if s4.head? == some '-' || s4.head? == some '+' then s4.drop 1 else s4
        let ed := s5.takeWhile isDigitCh
        if ed.isEmpty then none
        else some (base * pow10 (esgn * (digitsToNat ed : Int)), s5.drop ed.length)

mutual

def parseJVal : Nat → Str → Option (Json × Str)
  | 0, _ => none
  | fuel + 1, s =>
    match jsonSkipWs s with
    | [] => none
    | c :: cs =>
      if c == '{' then
        match jsonSkipWs cs with
        | '}' :: rest => some (.obj [], rest)
        | s2 => (parseJMembers fuel s2).map (fun r => (.obj r.1, r.2))
      else if c == '[' then
        match jsonSkipWs cs with
        | ']' :: rest => some (.arr [], rest)
        | s2 => (parseJItems fuel s2).map (fun r => (.arr r.1, r.2))
      else if c == '"' then
        (parseJStr (cs.length + 1) cs).map (fun r => (.jstr r.1, r.2))
      else if startsWith (str "true") (c :: cs) then some (.jbool true, (c :: cs).drop 4)
      else if startsWith (str "false") (c :: cs) then some (.jbool false, (c :: cs).drop 5)
      else if startsWith (str "null") (c :: cs) then some (.null, (c :: cs).drop 4)
      else (parseJNum (c :: cs)).map (fun r => (.num r.1, r.2))

def parseJMembers : Nat → Str → Option (List (Str × Json) × Str)
  | 0, _ => none
  | fuel + 1, s =>
    match jsonSkipWs s with
    | '"' :: cs =>
      match parseJStr (cs.length + 1) cs with
      | none => none
      | some (key, s2) =>
        match jsonSkipWs s2 with
        | ':' :: s3 =>
          match parseJVal fuel s3 with
          | none => none
          | some (v, s4) =>
            match jsonSkipWs s4 with
            | ',' :: s5 => (parseJMembers fuel s5).map (fun r => ((key, v) :: r.1, r.2))
            | '}' :: s5 => some ([(key, v)], s5)
            | _ => none
        | _ => none
    | _ => none

def parseJItems : Nat → Str → Option (List Json × Str)
  | 0, _ => none
  | fuel + 1, s =>
    match parseJVal fuel s with
    | none => none
    | some (v, s2) =>
      match jsonSkipWs s2 with
      | ',' :: s3 => (parseJItems fuel s3).map (fun r => (v :: r.1, r.2))
      | ']' :: s3 => some ([v], s3)
      | _ => none

end

/-- `json.loads`: one JSON value with only whitespace around it. -/
def json_loads (s : Str) : Option Json :=
  match parseJVal (s.length + 1) s with
  | some (v, rest) => if (jsonSkipWs rest).isEmpty then some v else none
  | none => none

/-- Python truthiness of a parsed JSON value. -/
def pyTruthy : Json → Bool
  | .null => false
  | .jbool b => b
  | .num q => q != 0
  | .jstr s => !s.isEmpty
  | .arr l => !l.isEmpty
  | .obj l => !l.isEmpty

/-- The fence-stripping step of `extract_with_openai`:
`content[7:-3]` after a ```` ```json ```` prefix, `content[3:-3]` after a
bare ` ``` ` prefix. -/
def stripFences (content : Str) : Str :=
  if startsWith (str "```json") content then (content.drop 7).take (content.length - 10)
  else if startsWith (str "```") content then (content.drop 3).take (content.length - 6)
  else content

/-- `extract_with_openai`: `{}` without a client; on a reply, the message
content is stripped, unfenced and parsed as JSON — the parsed value is
returned as-is (even when it is not an object); every raised exception
(transport error, `json.JSONDecodeError`) is caught and yields `{}`.
The prompt built from `text` does not influence the modelled result. -/
def extract_with_openai (llm : LLMReply) (_text : Str) : Json :=
  match llm with
  | .absent => .obj []
  | .errors => .obj []
  | .reply raw =>
    let content := strip raw
    let content := stripFences content
    match json_loads content with
    | some v => v
    | none => .obj []

/-- The only exception the modelled code can raise: `AttributeError` from
`.get` on a non-dict. -/
inductive PyErr where
  | attributeError : PyErr
  deriving DecidableEq, Repr

/-- `dict.get(key)` on an association list (last binding wins, as in a Python
dict built by `json.loads`). -/
def llmMapValue (kvs : List (Str × Json)) (key : Str) : Option Json :=
  (kvs.reverse.find? (fun p => p.1 == key)).map (fun p => p.2)

/-- `openai_result.get(key)`: on a dict, its value; on any other value,
`AttributeError`. -/
def pyGet (j : Json) (key : Str) : Except PyErr (Option Json) :=
  match j with
  | .obj kvs => .ok (llmMapValue kvs key)
  | _ => .error .attributeError

/-- `_best_result`: specialized value above 0.7; else a truthy LLM value;
else specialized value above 0.3; else the empty string. -/
def best_result (openai_value : Option Json) (extraction_result : ExtractionResult) :
    Json :=
  if mkRat 7 10 < extraction_result.confidence then .jstr extraction_result.value
  else
    match openai_value with
    | some v =>
      if pyTruthy v then v
      else if mkRat 3 10 < extraction_result.confidence then .jstr extraction_result.value
      else .jstr []
    | none =>
      if mkRat 3 10 < extraction_result.confidence then .jstr extraction_result.value
      else .jstr []

/-- `_calculate_overall_confidence`'s weight table (dict insertion order). -/
def field_weights : List (Str × ℚ) :=
  [(str "origin", mkRat 25 100),
   (str "destination", mkRat 25 100),
   (str "commodity", mkRat 20 100),
   (str "weight", mkRat 15 100),
   (str "urgency", mkRat 10 100),
   (str "contact_name", mkRat 5 100)]

/-- Weight of the `i`-th result: the `i`-th table entry when `i < 6`, else the
`field_weights.get('other', 0.05)` default. -/
def weightAt (i : Nat) : ℚ :=
  match field_weights.get? i with
  | some p => p.2
  | none => mkRat 5 100

/-- The `for i, result in enumerate(results)` loop of
`_calculate_overall_confidence`: accumulates `(weighted_score, total_weight)`,
counting only results with positive confidence. -/
def calcAccum : Nat → List ExtractionResult → ℚ × ℚ → ℚ × ℚ
  | _, [], acc => acc
  | i, r :: rest, acc =>
    let w := weightAt i
    calcAccum (i + 1) rest
      (if 0 < r.confidence then (acc.1 + r.confidence * w, acc.2 + w) else acc)

/-- `_calculate_overall_confidence`: weighted sum and weight total over the
results with positive confidence, a ×1.1 bonus when at least 3 of the first
four results exceed 0.7, quotient capped at 1.0 (0.0 for an empty total). -/
def calculate_overall_confidence (results : List ExtractionResult) : ℚ :=
  if results.isEmpty then 0
  else
    let acc := calcAccum 0 results ((0 : ℚ), (0 : ℚ))
    let weighted_score :=
      if 3 ≤ ((results.take 4).filter (fun r => decide (mkRat 7 10 < r.confidence))).length
      then acc.1 * mkRat 11 10 else acc.1
    if 0 < acc.2 then qmin (weighted_score / acc.2) 1 else 0

/-- The dict returned by `extract_all`.  The six arbitrated fields hold JSON
values (the LLM's value is passed through as parsed); `contact_info` is always
a string. -/
structure RFQOutput where
  origin : Json
  destination : Json
  commodity : Json
  weight : Json
  urgency : Json
  contact_name : Json
  contact_info : Str
  extraction_confidence : ℚ

/-- `extract_all`: run the LLM field extractor and every specialized
extractor, then merge with `_best_result`; `.get` on a non-dict LLM result
raises `AttributeError` out of the function. -/
def extract_all (env : Env) (text : Str) : Except PyErr RFQOutput := do
  let openai_result := extract_with_openai env.fieldLLM text
  let origin := extract_location text false
  let destination := extract_location text true
  let commodity := extract_commodity text
  let weight := extract_weight text
  let urgency := extract_urgency text
  let nc := extract_contact_info env text
  let ovOrigin ← pyGet openai_result (str "origin")
  let ovDestination ← pyGet openai_result (str "destination")
  let ovCommodity ← pyGet openai_result (str "commodity")
  let ovWeight ← pyGet openai_result (str "weight")
  let ovUrgency ← pyGet openai_result (str "urgency")
  let ovContactName ← pyGet openai_result (str "contact_name")
  return { origin := best_result ovOrigin origin
           destination := best_result ovDestination destination
           commodity := best_result ovCommodity commodity
           weight := best_result ovWeight weight
           urgency := best_result ovUrgency urgency
           contact_name := best_result ovContactName nc.1
           contact_info := if mkRat 1 2 < nc.2.confidence then nc.2.value else []
           extraction_confidence :=
             calculate_overall_confidence [origin, destination, commodity, weight] }

def Json.isObj : Json → Bool
  | .obj _ => true
  | _ => false
/-- The per-field arbitration policy exactly as the specification words it
(for a string-valued LLM map): specialized value above confidence 0.7; else
the LLM's value when the map holds a non-empty string for the field; else the
specialized value above 0.3; else the empty string. -/
def specPolicy (llmValue : Option Str) (r : ExtractionResult) : Str :=
  if mkRat 7 10 < r.confidence then r.value
  else if (llmValue.getD []).isEmpty = false then llmValue.getD []
  else if mkRat 3 10 < r.confidence then r.value
  else []
/-- The string the LLM map holds for a field, when the map is string-valued. -/
def llmStrValue (kvs : List (Str × Json)) (key : Str) : Option Str :=
  match llmMapValue kvs key with
  | some (Json.jstr s) => some s
  | _ => none
/-- The gazetteer score exactly as the specification words it:
`min(len(key)/20, 0.9)`. -/
def specScore (e : LocEntry) : ℚ := qmin (mkRat e.key.length 20) (mkRat 9 10)
/-- One step of the gazetteer scan as the specification words it: an entry
whose key occurs in the lowered input replaces the best only when its score
strictly improves (so the first entry wins ties). -/
def specStep (tl : Str) (acc : Option LocEntry × ℚ) (e : LocEntry) :
    Option LocEntry × ℚ :=
  if isSubstr e.key tl && decide (acc.2 < specScore e) then (some e, specScore e)
  else acc
/-- The gazetteer step of the claim: highest `min(len/20, 0.9)` score over the
entries matching as a case-insensitive substring, first entry in table order
winning ties. -/
def bestDbMatchSpec (text : Str) : Option LocEntry × ℚ :=
  location_db.foldl (specStep (lowerStr text)) (none, 0)

/-! ## Helper lemmas -/

theorem qmin_eq_min (a b : ℚ) : qmin a b = min a b := by
  simp only [qmin, min_def]
  rcases lt_trichotomy a b with h | h | h
  · rw [if_neg (by linarith), if_pos (by linarith)]
  · simp [h]
  · rw [if_pos h, if_neg (by linarith)]

theorem caseTable_lower_snd : ∀ p ∈ caseTable, toLowerCh p.2 = toLowerCh p.1 := by decide

theorem caseTable_lower_fst : ∀ p ∈ caseTable, toLowerCh p.1 = p.1 := by decide

theorem toLowerCh_toUpperCh (c : Char) : toLowerCh (toUpperCh c) = toLowerCh c := by
  unfold toUpperCh
  cases h : caseTable.find? (fun p => p.1 == c) with
  | none => rfl
  | some p =>
    have hmem := List.mem_of_find?_eq_some h
    have hp' := List.find?_some h
    have hp : p.1 = c := eq_of_beq hp'
    rw [← hp]
    exact caseTable_lower_snd p hmem

theorem toLowerCh_cases (c : Char) :
    toLowerCh c = c ∨ ∃ p ∈ caseTable, toLowerCh c = p.1 := by
  unfold toLowerCh
  cases h : caseTable.find? (fun p => p.2 == c) with
  | none => exact Or.inl rfl
  | some p => exact Or.inr ⟨p, List.mem_of_find?_eq_some h, rfl⟩

theorem toLowerCh_idem (c : Char) : toLowerCh (toLowerCh c) = toLowerCh c := by
  rcases toLowerCh_cases c with h | ⟨p, hmem, h⟩
  · rw [h]; exact h
  · rw [h]; exact caseTable_lower_fst p hmem

theorem lowerStr_titleGo (s : Str) : ∀ b, lowerStr (titleGo b s) = lowerStr s := by
  induction s with
  | nil => intro b; rfl
  | cons c cs ih =>
    intro b
    simp only [titleGo, lowerStr, List.map]
    congr 1
    · split
      · split
        · exact toLowerCh_idem c
        · exact toLowerCh_toUpperCh c
      · rfl
    · exact ih (isLetterEs c)

theorem lowerStr_titleStr (s : Str) : lowerStr (titleStr s) = lowerStr s :=
  lowerStr_titleGo s false

theorem pymax1_mem {α : Type} (f : α → ℚ) (c : α) (cs : List α) :
    pymax1 f c cs ∈ c :: cs := by
  induction cs generalizing c with
  | nil => simp [pymax1]
  | cons d ds ih =>
    have h := ih (if f c < f d then d else c)
    rcases List.mem_cons.mp h with h' | h'
    · show List.foldl _ (if f c < f d then d else c) ds ∈ c :: d :: ds
      rw [show List.foldl (fun b x => if f b < f x then x else b)
            (if f c < f d then d else c) ds = pymax1 f (if f c < f d then d else c) ds
          from rfl, h']
      split
      · exact List.mem_cons_of_mem _ (List.mem_cons_self _ _)
      · exact List.mem_cons_self _ _
    · show List.foldl _ (if f c < f d then d else c) ds ∈ c :: d :: ds
      exact List.mem_cons_of_mem _ (List.mem_cons_of_mem _ h')

theorem clean_ne_target (raw : Str) :
    clean_and_validate_name raw ≠ str "Cristel Garcia" := by
  unfold clean_and_validate_name
  split
  · decide
  · dsimp only
    split_ifs with h1 h2 h3 h4 h5 h6
    · decide
    · decide
    · decide
    · decide
    · decide
    · decide
    · intro habs
      have hl := congrArg lowerStr habs
      rw [lowerStr_titleStr] at hl
      have hsub : isSubstr (str "tel") (lowerStr (joinSpace (splitWS raw))) = true := by
        rw [hl]; decide
      have hany : exclude_words_adv.any
          (fun w => isSubstr w (lowerStr (joinSpace (splitWS raw)))) = true :=
        List.any_eq_true.mpr ⟨str "tel", by decide, hsub⟩
      exact h1 hany

theorem candidates_valid (nlp : Option (Str → List Str)) (zones : List Zone) :
    ∀ cand ∈ extract_ner_candidates nlp zones,
      is_valid_name_candidate cand.text = true := by
  intro cand hc
  cases nlp with
  | none =>
    unfold extract_ner_candidates extract_regex_fallback_candidates at hc
    simp only [List.mem_flatMap, List.mem_filterMap] at hc
    obtain ⟨z, _, pp, _, m, _, hval⟩ := hc
    split at hval
    · cases hval; assumption
    · cases hval
  | some ents =>
    unfold extract_ner_candidates at hc
    simp only [List.mem_flatMap, List.mem_filterMap] at hc
    obtain ⟨z, _, ent, _, hval⟩ := hc
    split at hval
    · cases hval; assumption
    · cases hval

theorem llm_validate_sound (llm : LLMReply) (cs : List NameCandidate) (s : Str)
    (h : llm_validate_candidates llm cs = some s) :
    is_valid_name_candidate s = true ∨ ∃ c ∈ cs, s = c.text := by
  rcases cs with _ | ⟨c0, rest⟩
  · rw [show llm_validate_candidates llm [] = none from rfl] at h
    cases h
  · cases llm with
    | absent =>
      rw [show llm_validate_candidates .absent (c0 :: rest)
            = some (pymax1 (fun c => c.confidence) c0 rest).text from rfl] at h
      refine Or.inr ⟨pymax1 (fun c => c.confidence) c0 rest, pymax1_mem _ _ _, ?_⟩
      cases h; rfl
    | errors =>
      rw [show llm_validate_candidates .errors (c0 :: rest)
            = (if mkRat 1 2 < (pymax1 (fun c => c.confidence) c0 rest).confidence
               then some (pymax1 (fun c => c.confidence) c0 rest).text
               else none) from rfl] at h
      split at h
      · refine Or.inr ⟨pymax1 (fun c => c.confidence) c0 rest, pymax1_mem _ _ _, ?_⟩
        cases h; rfl
      · cases h
    | reply r =>
      rw [show llm_validate_candidates (.reply r) (c0 :: rest)
            = (if (!List.isEmpty (strip r) && strip r != str "NONE"
                    && is_valid_name_candidate (strip r)) = true then some (strip r)
               else if mkRat 1 2 < (pymax1 (fun c => c.confidence) c0 rest).confidence
               then some (pymax1 (fun c => c.confidence) c0 rest).text
               else none) from rfl] at h
      split at h
      · rename_i hcond
        cases h
        simp only [Bool.and_eq_true] at hcond
        exact Or.inl hcond.2
      · split at h
        · refine Or.inr ⟨pymax1 (fun c => c.confidence) c0 rest, pymax1_mem _ _ _, ?_⟩
          cases h; rfl
        · cases h

theorem extract_name_valid_or_empty (env : Env) (t : Str) :
    (extract_name env t).name = [] ∨
      is_valid_name_candidate (extract_name env t).name = true := by
  unfold extract_name
  dsimp only
  split
  · exact Or.inl rfl
  · split
    · exact Or.inl rfl
    · rename_i c0 cs hcs
      split
      · rename_i final_name hfin
        split
        · exact Or.inl rfl
        · right
          rcases llm_validate_sound _ _ _ hfin with hv | ⟨c, hcmem, rfl⟩
          · exact hv
          · exact candidates_valid env.ner (detect_name_zones t) c (hcs ▸ hcmem)
      · exact Or.inl rfl

theorem nameFallbackGo_clean (ps : List (RE × ℚ)) (t : Str) :
    (nameFallbackGo ps t).value = [] ∨
      ∃ raw, (nameFallbackGo ps t).value = clean_and_validate_name raw := by
  induction ps with
  | nil => exact Or.inl rfl
  | cons p ps ih =>
    unfold nameFallbackGo
    split
    · dsimp only
      split
      · exact ih
      · exact Or.inr ⟨_, rfl⟩
    · exact ih

theorem extract_contact_name_ne (env : Env) (t : Str) :
    ((extract_contact_info env t).1.value == str "Cristel Garcia") = false := by
  apply beq_eq_false_iff_ne.mpr
  unfold extract_contact_info
  dsimp only
  split
  · -- hybrid produced nothing: the fallback value is empty or a clean_... value
    unfold extract_name_fallback
    rcases nameFallbackGo_clean adv_name_patterns t with h | ⟨raw, h⟩
    · rw [h]; decide
    · rw [h]; exact clean_ne_target raw
  · -- hybrid produced a name: it passed `_is_valid_name_candidate`
    unfold extract_name_hybrid
    dsimp only
    split
    · dsimp only
      intro habs
      rcases extract_name_valid_or_empty env t with h0 | hval
      · rw [h0] at habs
        exact absurd habs.symm (by decide)
      · rw [habs] at hval
        exact absurd hval (by decide)
    · decide


/-- C4: the claim states that for every strategy an empty value coincides with
confidence 0.0 (urgency's default being the sole exception).  The code breaks
this: on input `"de  ."` the origin path of `extract_location` matches the
contextual pattern `(?:desde|de|from)\s+([^\.]+?)(?:\s+hasta|\s+al|\s+to|\.)`
with a whitespace-only capture, and `strip().title()` turns it into the empty
string, which is returned with confidence 0.6 and method
`"contextual_pattern"`. -/
theorem C4_location_empty_value_bug :
    extract_location (str "de  .") false =
      ⟨[], mkRat 6 10, str "contextual_pattern", str "de  ."⟩ := by decide

/-- C9: the claim states `extract_with_openai` always returns a mapping (empty
on any failure mode) and that no LLM failure propagates out of `extract_all`.
The failure modes (client absent, call raising, non-JSON reply) do degrade to
the empty mapping, but a reply whose body is valid non-object JSON — here the
reply `"3"` — is returned as the parsed non-mapping value, and `extract_all`
then raises `AttributeError` from `openai_result.get`. -/
theorem C9_llm_nonmapping_bug :
    (∀ t, extract_with_openai .absent t = .obj []) ∧
    (∀ t, extract_with_openai .errors t = .obj []) ∧
    extract_with_openai (.reply (str "3")) (str "") = .num 3 ∧
    (extract_with_openai (.reply (str "3")) (str "")).isObj = false ∧
    extract_all ⟨.reply (str "3"), none, .absent⟩ (str "") =
      .error .attributeError :=
  ⟨fun _ => rfl, fun _ => rfl, rfl, rfl, rfl⟩

/-- C10 (counterexample): the claim offers `"Rosa Marin"` (containing the stop
word `"sa"`) as a name rejected by both validators, but the pipeline
validator's stop list has no `"sa"` entry, so `_is_valid_name_candidate`
accepts `"Rosa Marin"`. -/
theorem C10_substring_stopword_counterexample :
    is_valid_name_candidate (str "Rosa Marin") = true := by decide

/-- C10 (amended): both validators test stop words by substring containment on
the lowercased candidate, so well-formed two-word capitalized names containing
a stop word as an internal substring exist that both validators reject —
`"Cristel Garcia"` (containing `"tel"`) is rejected by both, and no name path
of `extract_contact_info` can ever produce it; `"Rosa Marin"` (containing
`"sa"`) is rejected by the fallback validator only. -/
theorem C10_substring_stopword_amended :
    isSubstr (str "tel") (lowerStr (str "Cristel Garcia")) = true ∧
    clean_and_validate_name (str "Cristel Garcia") = [] ∧
    is_valid_name_candidate (str "Cristel Garcia") = false ∧
    isSubstr (str "sa") (lowerStr (str "Rosa Marin")) = true ∧
    clean_and_validate_name (str "Rosa Marin") = [] ∧
    ∀ (env : Env) (t : Str),
      ((extract_contact_info env t).1.value == str "Cristel Garcia") = false :=
  ⟨by decide, by decide, by decide, by decide, by decide, extract_contact_name_ne⟩

theorem count4_closed (r1 r2 r3 r4 : ExtractionResult) :
    ((List.take 4 [r1, r2, r3, r4]).filter
        (fun r => decide (mkRat 7 10 < r.confidence))).length
      = (if mkRat 7 10 < r1.confidence then 1 else 0)
      + (if mkRat 7 10 < r2.confidence then 1 else 0)
      + (if mkRat 7 10 < r3.confidence then 1 else 0)
      + (if mkRat 7 10 < r4.confidence then 1 else 0) := by
  by_cases h1 : mkRat 7 10 < r1.confidence <;>
    by_cases h2 : mkRat 7 10 < r2.confidence <;>
      by_cases h3 : mkRat 7 10 < r3.confidence <;>
        by_cases h4 : mkRat 7 10 < r4.confidence <;>
          simp [List.take, List.filter, h1, h2, h3, h4]

/-- Closed form of `_calculate_overall_confidence` on exactly four results
(the list `extract_all` passes). -/
theorem calc4_closed (r1 r2 r3 r4 : ExtractionResult) :
    calculate_overall_confidence [r1, r2, r3, r4] =
      (let S : ℚ := (if 0 < r1.confidence then r1.confidence * mkRat 25 100 else 0)
                  + (if 0 < r2.confidence then r2.confidence * mkRat 25 100 else 0)
                  + (if 0 < r3.confidence then r3.confidence * mkRat 20 100 else 0)
                  + (if 0 < r4.confidence then r4.confidence * mkRat 15 100 else 0)
       let T : ℚ := (if 0 < r1.confidence then mkRat 25 100 else 0)
                  + (if 0 < r2.confidence then mkRat 25 100 else 0)
                  + (if 0 < r3.confidence then mkRat 20 100 else 0)
                  + (if 0 < r4.confidence then mkRat 15 100 else 0)
       let n : Nat := (if mkRat 7 10 < r1.confidence then 1 else 0)
                    + (if mkRat 7 10 < r2.confidence then 1 else 0)
                    + (if mkRat 7 10 < r3.confidence then 1 else 0)
                    + (if mkRat 7 10 < r4.confidence then 1 else 0)
       if 0 < T then qmin ((if 3 ≤ n then S * mkRat 11 10 else S) / T) 1 else 0) := by
  unfold calculate_overall_confidence
  rw [count4_closed]
  by_cases h1 : 0 < r1.confidence <;>
    by_cases h2 : 0 < r2.confidence <;>
      by_cases h3 : 0 < r3.confidence <;>
        by_cases h4 : 0 < r4.confidence <;>
          simp [calcAccum, weightAt, field_weights, List.get?, h1, h2, h3, h4]

/-- When the LLM field extraction yields a dict, `extract_all` returns the
merged record (no exception path remains). -/
theorem extract_all_ok (env : Env) (text : Str) (kvs : List (Str × Json))
    (hobj : extract_with_openai env.fieldLLM text = Json.obj kvs) :
    extract_all env text = Except.ok
      { origin := best_result (llmMapValue kvs (str "origin")) (extract_location text false)
        destination := best_result (llmMapValue kvs (str "destination"))
          (extract_location text true)
        commodity := best_result (llmMapValue kvs (str "commodity")) (extract_commodity text)
        weight := best_result (llmMapValue kvs (str "weight")) (extract_weight text)
        urgency := best_result (llmMapValue kvs (str "urgency")) (extract_urgency text)
        contact_name := best_result (llmMapValue kvs (str "contact_name"))
          (extract_contact_info env text).1
        contact_info := if mkRat 1 2 < (extract_contact_info env text).2.confidence
          then (extract_contact_info env text).2.value else []
        extraction_confidence := calculate_overall_confidence
          [extract_location text false, extract_location text true,
           extract_commodity text, extract_weight text] } := by
  unfold extract_all
  rw [hobj]
  rfl

theorem qmin_nonneg (a b : ℚ) (ha : 0 ≤ a) (hb : 0 ≤ b) : 0 ≤ qmin a b := by
  unfold qmin; split <;> assumption

theorem extract_location_conf_nonneg (t : Str) (d : Bool) :
    0 ≤ (extract_location t d).confidence := by
  unfold extract_location
  dsimp only
  split
  · split
    · rename_i h
      exact qmin_nonneg _ _ (le_of_lt (lt_trans (by decide) h)) (by decide)
    · split
      · exact (by decide : (0 : ℚ) ≤ mkRat 6 10)
      · exact le_refl 0
  · split
    · exact (by decide : (0 : ℚ) ≤ mkRat 6 10)
    · exact le_refl 0

theorem extract_commodity_conf_nonneg (t : Str) :
    0 ≤ (extract_commodity t).confidence := by
  unfold extract_commodity
  dsimp only
  split
  · exact (by decide : (0 : ℚ) ≤ mkRat 8 10)
  · split
    · exact (by decide : (0 : ℚ) ≤ mkRat 5 10)
    · exact le_refl 0

theorem collect_weights_conf (t : Str) :
    ∀ w ∈ collect_weights t,
      w.confidence = mkRat 9 10 ∨ w.confidence = mkRat 7 10 := by
  intro w hw
  unfold collect_weights at hw
  simp only [List.mem_flatMap, List.mem_filterMap] at hw
  obtain ⟨p, _, m, _, hc⟩ := hw
  unfold weightCandOfMatch at hc
  cases hp : parseDecQ m.grp1 with
  | none => rw [hp] at hc; cases hc
  | some v =>
    rw [hp] at hc
    cases hc
    dsimp only
    split
    · exact Or.inl rfl
    · exact Or.inr rfl

theorem extract_weight_conf_nonneg (t : Str) :
    0 ≤ (extract_weight t).confidence := by
  have hconf := collect_weights_conf t
  unfold extract_weight reconcile_weights
  cases h : collect_weights t with
  | nil => exact le_refl 0
  | cons w0 rest =>
    dsimp only
    split
    · rename_i t0 ts htot
      have hmem : pymax1 (fun w => w.confidence) t0 ts ∈ t0 :: ts := pymax1_mem _ _ _
      rw [← htot] at hmem
      have hin := hconf _ (List.mem_of_mem_filter (h ▸ hmem))
      rcases hin with h9 | h7
      · rw [h9]; exact (by decide : (0 : ℚ) ≤ mkRat 9 10)
      · rw [h7]; exact (by decide : (0 : ℚ) ≤ mkRat 7 10)
    · split
      · rcases hconf w0 (h ▸ List.mem_cons_self _ _) with h9 | h7
        · rw [h9]; exact (by decide : (0 : ℚ) ≤ mkRat 9 10)
        · rw [h7]; exact (by decide : (0 : ℚ) ≤ mkRat 7 10)
      · split
        · exact (by decide : (0 : ℚ) ≤ mkRat 8 10)
        · show 0 ≤ _ / _
          apply div_nonneg
          · apply List.sum_nonneg
            intro x hx
            simp only [List.mem_map] at hx
            obtain ⟨w, hwmem, rfl⟩ := hx
            rcases hconf w (h ▸ hwmem) with h9 | h7
            · rw [h9]; exact (by decide : (0 : ℚ) ≤ mkRat 9 10)
            · rw [h7]; exact (by decide : (0 : ℚ) ≤ mkRat 7 10)
          · rw [Rat.mkRat_eq_div]
            positivity

theorem extract_urgency_conf_nonneg (t : Str) :
    0 ≤ (extract_urgency t).confidence := by
  unfold extract_urgency
  dsimp only
  cases h : urgent_indicators.find? (fun p => isSubstr p.1 (lowerStr t)) with
  | none => exact (by decide : (0 : ℚ) ≤ mkRat 8 10)
  | some p =>
    have hmem := List.mem_of_find?_eq_some h
    have hall : ∀ q ∈ urgent_indicators, 0 ≤ q.2 := by decide
    exact hall p hmem



theorem best_result_spec (kvs : List (Str × Json))
    (hstr : ∀ p ∈ kvs, ∃ s : Str, p.2 = Json.jstr s) (key : Str)
    (r : ExtractionResult) :
    best_result (llmMapValue kvs key) r =
      .jstr (specPolicy (llmStrValue kvs key) r) := by
  unfold best_result specPolicy llmStrValue
  cases h : llmMapValue kvs key with
  | none =>
    dsimp only [Option.getD]
    split
    · rfl
    · rw [if_neg (by decide : ¬(List.isEmpty ([] : Str) = false))]
      exact (apply_ite Json.jstr _ _ _).symm
  | some v =>
    obtain ⟨s, rfl⟩ : ∃ s, v = Json.jstr s := by
      rcases Option.map_eq_some'.mp h with ⟨p, hfind, hv⟩
      have hmem : p ∈ kvs := (List.mem_reverse).mp (List.mem_of_find?_eq_some hfind)
      rcases hstr p hmem with ⟨s, hs⟩
      exact ⟨s, by rw [← hv, hs]⟩
    dsimp only [Option.getD]
    split
    · rfl
    · by_cases hs : s.isEmpty = true
      · rw [show pyTruthy (Json.jstr s) = false by simp [pyTruthy, hs]]
        rw [if_neg (by simp : ¬(false = true))]
        rw [if_neg (show ¬(s.isEmpty = false) by rw [hs]; simp)]
        exact (apply_ite Json.jstr _ _ _).symm
      · rw [show pyTruthy (Json.jstr s) = true by
              simp only [pyTruthy]
              simp only [Bool.not_eq_true] at hs
              rw [hs]
              rfl]
        rw [if_pos rfl]
        rw [if_pos (by simp only [Bool.not_eq_true] at hs; exact hs)]

/-- C1: the arbitration layer's per-field choice follows the stated
threshold policy for the six primary fields, and `contact_info` is never
arbitrated against the LLM: it is the specialized contact value above
confidence 0.5 and empty otherwise. -/
theorem C1_arbitration_policy (env : Env) (text : Str) (kvs : List (Str × Json))
    (hobj : extract_with_openai env.fieldLLM text = Json.obj kvs)
    (hstr : ∀ p ∈ kvs, ∃ s : Str, p.2 = Json.jstr s) :
    ∃ out, extract_all env text = Except.ok out ∧
      out.origin = .jstr (specPolicy (llmStrValue kvs (str "origin"))
        (extract_location text false)) ∧
      out.destination = .jstr (specPolicy (llmStrValue kvs (str "destination"))
        (extract_location text true)) ∧
      out.commodity = .jstr (specPolicy (llmStrValue kvs (str "commodity"))
        (extract_commodity text)) ∧
      out.weight = .jstr (specPolicy (llmStrValue kvs (str "weight"))
        (extract_weight text)) ∧
      out.urgency = .jstr (specPolicy (llmStrValue kvs (str "urgency"))
        (extract_urgency text)) ∧
      out.contact_name = .jstr (specPolicy (llmStrValue kvs (str "contact_name"))
        (extract_contact_info env text).1) ∧
      out.contact_info = (if mkRat 1 2 < (extract_contact_info env text).2.confidence
        then (extract_contact_info env text).2.value else []) := by
  refine ⟨_, extract_all_ok env text kvs hobj, ?p1, ?p2, ?p3, ?p4, ?p5, ?p6, ?p7⟩ <;>
    first
      | exact best_result_spec kvs hstr _ _
      | rfl

/-- C1 witness: with no LLM client the map is the empty dict (string-valued
vacuously); the policy then reproduces each field. -/
theorem C1_arbitration_policy_witness :
    ∃ out, extract_all ⟨.absent, none, .absent⟩ (str "") = Except.ok out ∧
      out.origin = .jstr (specPolicy (llmStrValue [] (str "origin"))
        (extract_location (str "") false)) :=
  (C1_arbitration_policy ⟨.absent, none, .absent⟩ (str "") [] rfl
      (fun p hp => absurd hp (List.not_mem_nil p))).elim
    (fun out h => ⟨out, h.1, h.2.1⟩)

theorem if_ne_eq_if_pos (c : ℚ) (h : 0 ≤ c) (x y : ℚ) :
    (if c ≠ 0 then x else y) = (if 0 < c then x else y) := by
  rcases eq_or_lt_of_le h with e | p
  · rw [if_neg (by rw [← e]; simp), if_neg (by rw [← e]; exact lt_irrefl 0)]
  · rw [if_pos p.ne', if_pos p]

theorem sum4_weights_pos (c1 c2 c3 c4 : ℚ)
    (h1 : 0 ≤ c1) (h2 : 0 ≤ c2) (h3 : 0 ≤ c3) (h4 : 0 ≤ c4)
    (hn : ¬(c1 = 0 ∧ c2 = 0 ∧ c3 = 0 ∧ c4 = 0)) :
    0 < (if 0 < c1 then mkRat 25 100 else 0) + (if 0 < c2 then mkRat 25 100 else 0)
      + (if 0 < c3 then mkRat 20 100 else 0) + (if 0 < c4 then mkRat 15 100 else 0) := by
  have t1 : (0 : ℚ) ≤ if 0 < c1 then mkRat 25 100 else 0 := by split <;> decide
  have t2 : (0 : ℚ) ≤ if 0 < c2 then mkRat 25 100 else 0 := by split <;> decide
  have t3 : (0 : ℚ) ≤ if 0 < c3 then mkRat 20 100 else 0 := by split <;> decide
  have t4 : (0 : ℚ) ≤ if 0 < c4 then mkRat 15 100 else 0 := by split <;> decide
  push_neg at hn
  by_cases e1 : c1 = 0
  · by_cases e2 : c2 = 0
    · by_cases e3 : c3 = 0
      · have e4 := hn e1 e2 e3
        have p4 : 0 < c4 := lt_of_le_of_ne h4 (Ne.symm e4)
        have : (if 0 < c4 then mkRat 15 100 else (0 : ℚ)) = mkRat 15 100 := if_pos p4
        rw [this]
        have : (0 : ℚ) < mkRat 15 100 := by decide
        linarith
      · have p3 : 0 < c3 := lt_of_le_of_ne h3 (Ne.symm e3)
        have : (if 0 < c3 then mkRat 20 100 else (0 : ℚ)) = mkRat 20 100 := if_pos p3
        rw [this]
        have : (0 : ℚ) < mkRat 20 100 := by decide
        linarith
    · have p2 : 0 < c2 := lt_of_le_of_ne h2 (Ne.symm e2)
      have : (if 0 < c2 then mkRat 25 100 else (0 : ℚ)) = mkRat 25 100 := if_pos p2
      rw [this]
      have : (0 : ℚ) < mkRat 25 100 := by decide
      linarith
  · have p1 : 0 < c1 := lt_of_le_of_ne h1 (Ne.symm e1)
    have : (if 0 < c1 then mkRat 25 100 else (0 : ℚ)) = mkRat 25 100 := if_pos p1
    rw [this]
    have : (0 : ℚ) < mkRat 25 100 := by decide
    linarith

/-- C2: the aggregate `extraction_confidence` equals the weighted average over
the four specialized results (origin 0.25, destination 0.25, commodity 0.20,
weight 0.15), only nonzero-confidence results contributing their weight to
the denominator, the weighted sum multiplied by 1.1 when at least 3 of the
four exceed 0.7, the quotient capped at 1.0, and 0.0 when all four
confidences are zero. -/
theorem C2_overall_confidence_formula (env : Env) (text : Str)
    (kvs : List (Str × Json))
    (hobj : extract_with_openai env.fieldLLM text = Json.obj kvs) :
    ∃ out, extract_all env text = Except.ok out ∧
      out.extraction_confidence =
        (let c1 := (extract_location text false).confidence
         let c2 := (extract_location text true).confidence
         let c3 := (extract_commodity text).confidence
         let c4 := (extract_weight text).confidence
         let S : ℚ := (if c1 ≠ 0 then c1 * mkRat 25 100 else 0)
                    + (if c2 ≠ 0 then c2 * mkRat 25 100 else 0)
                    + (if c3 ≠ 0 then c3 * mkRat 20 100 else 0)
                    + (if c4 ≠ 0 then c4 * mkRat 15 100 else 0)
         let T : ℚ := (if c1 ≠ 0 then mkRat 25 100 else 0)
                    + (if c2 ≠ 0 then mkRat 25 100 else 0)
                    + (if c3 ≠ 0 then mkRat 20 100 else 0)
                    + (if c4 ≠ 0 then mkRat 15 100 else 0)
         let n : Nat := (if mkRat 7 10 < c1 then 1 else 0)
                      + (if mkRat 7 10 < c2 then 1 else 0)
                      + (if mkRat 7 10 < c3 then 1 else 0)
                      + (if mkRat 7 10 < c4 then 1 else 0)
         if c1 = 0 ∧ c2 = 0 ∧ c3 = 0 ∧ c4 = 0 then 0
         else min ((if 3 ≤ n then S * mkRat 11 10 else S) / T) 1) := by
  refine ⟨_, extract_all_ok env text kvs hobj, ?_⟩
  have n1 := extract_location_conf_nonneg text false
  have n2 := extract_location_conf_nonneg text true
  have n3 := extract_commodity_conf_nonneg text
  have n4 := extract_weight_conf_nonneg text
  dsimp only
  rw [calc4_closed]
  dsimp only
  rw [if_ne_eq_if_pos _ n1, if_ne_eq_if_pos _ n2, if_ne_eq_if_pos _ n3,
      if_ne_eq_if_pos _ n4, if_ne_eq_if_pos _ n1, if_ne_eq_if_pos _ n2,
      if_ne_eq_if_pos _ n3, if_ne_eq_if_pos _ n4]
  by_cases hz : (extract_location text false).confidence = 0
      ∧ (extract_location text true).confidence = 0
      ∧ (extract_commodity text).confidence = 0
      ∧ (extract_weight text).confidence = 0
  · rw [if_pos hz]
    obtain ⟨e1, e2, e3, e4⟩ := hz
    rw [e1, e2, e3, e4]
    norm_num
  · rw [if_neg hz, if_pos (sum4_weights_pos _ _ _ _ n1 n2 n3 n4 hz), qmin_eq_min]

/-- C2 witness: on the empty input with no LLM client the hypotheses hold and
`extract_all` succeeds. -/
theorem C2_overall_confidence_formula_witness :
    ∃ out, extract_all ⟨.absent, none, .absent⟩ (str "") = Except.ok out :=
  (C2_overall_confidence_formula ⟨.absent, none, .absent⟩ (str "") [] rfl).elim
    (fun out h => ⟨out, h.1⟩)

/-- C3 (counterexample): the aggregate is not monotone at the zero boundary.
Raising the fourth component's confidence from 0 to 0.01 (others fixed at
0.9, 0, 0) moves its 0.15 weight into the denominator and drops the aggregate
from 0.9 to 0.56625. -/
theorem C3_monotonicity_counterexample :
    calculate_overall_confidence
        [⟨str "v", mkRat 9 10, str "m", []⟩, ⟨str "v", 0, str "m", []⟩,
         ⟨str "v", 0, str "m", []⟩, ⟨str "v", mkRat 1 100, str "m", []⟩] <
      calculate_overall_confidence
        [⟨str "v", mkRat 9 10, str "m", []⟩, ⟨str "v", 0, str "m", []⟩,
         ⟨str "v", 0, str "m", []⟩, ⟨str "v", 0, str "m", []⟩] := by decide

theorem qmin_one_le_one (a : ℚ) : qmin a 1 ≤ 1 := by
  unfold qmin
  split
  · exact le_refl 1
  · linarith [show ¬((1 : ℚ) < a) from ‹_›]

theorem qmin_one_mono (a b : ℚ) (h : a ≤ b) : qmin a 1 ≤ qmin b 1 := by
  rw [qmin_eq_min, qmin_eq_min]
  exact min_le_min h (le_refl 1)

theorem ifterm_nonneg (c w : ℚ) (hw : 0 ≤ w) :
    0 ≤ (if 0 < c then c * w else 0) := by
  split
  · exact mul_nonneg (le_of_lt ‹0 < c›) hw
  · exact le_refl 0

theorem ind_mono (c1 c2 : ℚ) (h : c1 ≤ c2) :
    (if mkRat 7 10 < c1 then (1 : Nat) else 0) ≤
      (if mkRat 7 10 < c2 then 1 else 0) := by
  split
  · rw [if_pos (lt_of_lt_of_le ‹_› h)]
  · split
    · exact Nat.zero_le 1
    · exact le_refl 0

theorem calcBonus_mono (S1 S2 : ℚ) (n1 n2 : Nat) (hS : S1 ≤ S2) (hS0 : 0 ≤ S1)
    (hn : n1 ≤ n2) :
    (if 3 ≤ n1 then S1 * mkRat 11 10 else S1) ≤
      (if 3 ≤ n2 then S2 * mkRat 11 10 else S2) := by
  have hS2 : 0 ≤ S2 := le_trans hS0 hS
  have hmul : S1 * mkRat 11 10 ≤ S2 * mkRat 11 10 :=
    mul_le_mul_of_nonneg_right hS (by decide)
  split
  · rw [if_pos (le_trans ‹3 ≤ n1› hn)]
    exact hmul
  · split
    · calc S1 ≤ S2 := hS
        _ = S2 * 1 := (mul_one S2).symm
        _ ≤ S2 * mkRat 11 10 := mul_le_mul_of_nonneg_left (by decide) hS2
    · exact hS

theorem calc_closed_mono (S1 S2 T : ℚ) (n1 n2 : Nat)
    (hS : S1 ≤ S2) (hS0 : 0 ≤ S1) (hn : n1 ≤ n2) :
    (if 0 < T then qmin ((if 3 ≤ n1 then S1 * mkRat 11 10 else S1) / T) 1 else 0) ≤
      (if 0 < T then qmin ((if 3 ≤ n2 then S2 * mkRat 11 10 else S2) / T) 1 else 0) := by
  split
  · rename_i hT
    apply qmin_one_mono
    exact (div_le_div_iff_of_pos_right hT).mpr (calcBonus_mono S1 S2 n1 n2 hS hS0 hn)
  · exact le_refl 0

theorem calc_le_one (rs : List ExtractionResult) :
    calculate_overall_confidence rs ≤ 1 := by
  unfold calculate_overall_confidence
  split
  · exact (by decide : (0 : ℚ) ≤ 1)
  · dsimp only
    split
    · exact qmin_one_le_one _
    · exact (by decide : (0 : ℚ) ≤ 1)

/-- C3 (amended): the aggregate-confidence function is monotone in any one
component's confidence as long as the confidence stays strictly positive
(raising a confidence from exactly zero can lower the aggregate, because the
component's weight then enters the denominator — see the counterexample), and
the aggregate never exceeds 1.0 despite the 1.1 bonus. -/
theorem C3_monotonicity_amended :
    (∀ (r1 r2 r3 r4 r : ExtractionResult) (j : Fin 4) (c1 c2 : ℚ),
        0 < c1 → c1 ≤ c2 →
        calculate_overall_confidence
            (List.set [r1, r2, r3, r4] j ({ r with confidence := c1 })) ≤
          calculate_overall_confidence
            (List.set [r1, r2, r3, r4] j ({ r with confidence := c2 }))) ∧
    (∀ rs : List ExtractionResult, calculate_overall_confidence rs ≤ 1) := by
  constructor
  · intro r1 r2 r3 r4 r j c1 c2 hc1 hc
    have hc2 : 0 < c2 := lt_of_lt_of_le hc1 hc
    fin_cases j
    · simp only [List.set]
      rw [calc4_closed, calc4_closed]
      dsimp only
      rw [if_pos hc1, if_pos hc1, if_pos hc2, if_pos hc2]
      apply calc_closed_mono
      · exact add_le_add (add_le_add (add_le_add
          (mul_le_mul_of_nonneg_right hc (by decide)) (le_refl _)) (le_refl _))
          (le_refl _)
      · exact add_nonneg (add_nonneg (add_nonneg
          (mul_nonneg (le_of_lt hc1) (by decide)) (ifterm_nonneg _ _ (by decide)))
          (ifterm_nonneg _ _ (by decide))) (ifterm_nonneg _ _ (by decide))
      · exact add_le_add (add_le_add (add_le_add
          (ind_mono c1 c2 hc) (le_refl _)) (le_refl _)) (le_refl _)
    · simp only [List.set]
      rw [calc4_closed, calc4_closed]
      dsimp only
      rw [if_pos hc1, if_pos hc1, if_pos hc2, if_pos hc2]
      apply calc_closed_mono
      · exact add_le_add (add_le_add (add_le_add (le_refl _)
          (mul_le_mul_of_nonneg_right hc (by decide))) (le_refl _)) (le_refl _)
      · exact add_nonneg (add_nonneg (add_nonneg
          (ifterm_nonneg _ _ (by decide)) (mul_nonneg (le_of_lt hc1) (by decide)))
          (ifterm_nonneg _ _ (by decide))) (ifterm_nonneg _ _ (by decide))
      · exact add_le_add (add_le_add (add_le_add (le_refl _)
          (ind_mono c1 c2 hc)) (le_refl _)) (le_refl _)
    · simp only [List.set]
      rw [calc4_closed, calc4_closed]
      dsimp only
      rw [if_pos hc1, if_pos hc1, if_pos hc2, if_pos hc2]
      apply calc_closed_mono
      · exact add_le_add (add_le_add (add_le_add (le_refl _) (le_refl _))
          (mul_le_mul_of_nonneg_right hc (by decide))) (le_refl _)
      · exact add_nonneg (add_nonneg (add_nonneg
          (ifterm_nonneg _ _ (by decide)) (ifterm_nonneg _ _ (by decide)))
          (mul_nonneg (le_of_lt hc1) (by decide))) (ifterm_nonneg _ _ (by decide))
      · exact add_le_add (add_le_add (add_le_add (le_refl _) (le_refl _))
          (ind_mono c1 c2 hc)) (le_refl _)
    · simp only [List.set]
      rw [calc4_closed, calc4_closed]
      dsimp only
      rw [if_pos hc1, if_pos hc1, if_pos hc2, if_pos hc2]
      apply calc_closed_mono
      · exact add_le_add (le_refl _) (mul_le_mul_of_nonneg_right hc (by decide))
      · exact add_nonneg (add_nonneg (add_nonneg
          (ifterm_nonneg _ _ (by decide)) (ifterm_nonneg _ _ (by decide)))
          (ifterm_nonneg _ _ (by decide))) (mul_nonneg (le_of_lt hc1) (by decide))
      · exact add_le_add (le_refl _) (ind_mono c1 c2 hc)
  · exact calc_le_one

/-- C3 witness: a concrete in-range monotone instance (fourth component raised
from 0.2 to 0.5) and the cap on a concrete list. -/
theorem C3_monotonicity_amended_witness :
    calculate_overall_confidence
        (List.set [⟨str "v", mkRat 9 10, str "m", []⟩, ⟨str "v", 0, str "m", []⟩,
           ⟨str "v", 0, str "m", []⟩, ⟨str "v", 0, str "m", []⟩] 3
           ({ (⟨str "v", 0, str "m", []⟩ : ExtractionResult) with
               confidence := mkRat 2 10 })) ≤
      calculate_overall_confidence
        (List.set [⟨str "v", mkRat 9 10, str "m", []⟩, ⟨str "v", 0, str "m", []⟩,
           ⟨str "v", 0, str "m", []⟩, ⟨str "v", 0, str "m", []⟩] 3
           ({ (⟨str "v", 0, str "m", []⟩ : ExtractionResult) with
               confidence := mkRat 5 10 })) :=
  C3_monotonicity_amended.1 _ _ _ _ _ 3 (mkRat 2 10) (mkRat 5 10)
    (by decide) (by decide)

/-- C5: weight reconciliation follows the strict priority order over the
collected candidates: a candidate reaches confidence 0.9 exactly when its
match text contains `total` or `peso`; any such candidate wins via
`explicit_total` (max confidence, first seen on ties); else a unique
candidate is returned via `single_weight`; else with some candidate ≥ 100 kg
the largest wins at forced confidence 0.8 via `largest_weight`; else the
kilogram values are summed and the confidences averaged via
`small_weights_sum`; and the stated concrete input selects `"1900 kg"` via
`explicit_total`. -/
theorem C5_weight_reconciliation :
    (∀ (t : Str), ∀ w ∈ collect_weights t,
        w.confidence = (if isSubstr (str "total") (lowerStr w.original)
            || isSubstr (str "peso") (lowerStr w.original)
          then mkRat 9 10 else mkRat 7 10)) ∧
    (∀ (t : Str) (t0 : WCand) (ts : List WCand),
        (collect_weights t).filter (fun w => decide (mkRat 9 10 ≤ w.confidence))
            = t0 :: ts →
        extract_weight t =
          ⟨fmtKg (pymax1 (fun w => w.confidence) t0 ts).value_kg,
           (pymax1 (fun w => w.confidence) t0 ts).confidence,
           str "explicit_total", []⟩) ∧
    (∀ (t : Str) (w : WCand), collect_weights t = [w] →
        ¬ mkRat 9 10 ≤ w.confidence →
        extract_weight t = ⟨fmtKg w.value_kg, w.confidence, str "single_weight", []⟩) ∧
    (∀ (t : Str) (w0 w1 : WCand) (ws : List WCand) (s0 : WCand) (ss : List WCand),
        collect_weights t = w0 :: w1 :: ws →
        (collect_weights t).filter (fun w => decide (mkRat 9 10 ≤ w.confidence)) = [] →
        (collect_weights t).filter (fun w => decide ((100 : ℚ) ≤ w.value_kg))
            = s0 :: ss →
        extract_weight t =
          ⟨fmtKg (pymax1 (fun w => w.value_kg) s0 ss).value_kg, mkRat 8 10,
           str "largest_weight", []⟩) ∧
    (∀ (t : Str) (w0 w1 : WCand) (ws : List WCand),
        collect_weights t = w0 :: w1 :: ws →
        (collect_weights t).filter (fun w => decide (mkRat 9 10 ≤ w.confidence)) = [] →
        (collect_weights t).filter (fun w => decide ((100 : ℚ) ≤ w.value_kg)) = [] →
        extract_weight t =
          ⟨fmtKg (((w0 :: w1 :: ws).map (fun w => w.value_kg)).sum),
           (((w0 :: w1 :: ws).map (fun w => w.confidence)).sum)
             / mkRat (ws.length + 2) 1,
           str "small_weights_sum", []⟩) ∧
    extract_weight (str "890kg 65kg 950kg TOTAL= mas o menos 1900kg") =
      ⟨str "1900 kg", mkRat 9 10, str "explicit_total", []⟩ := by
  refine ⟨?w1, ?w2, ?w3, ?w4, ?w5, by decide⟩
  · intro t w hw
    unfold collect_weights at hw
    simp only [List.mem_flatMap, List.mem_filterMap] at hw
    obtain ⟨p, _, m, _, hc⟩ := hw
    unfold weightCandOfMatch at hc
    cases hp : parseDecQ m.grp1 with
    | none => rw [hp] at hc; cases hc
    | some v => rw [hp] at hc; cases hc; rfl
  · intro t t0 ts hfilter
    unfold extract_weight reconcile_weights
    cases hcw : collect_weights t with
    | nil => rw [hcw] at hfilter; simp at hfilter
    | cons w0 rest =>
      dsimp only
      rw [hcw] at hfilter
      rw [hfilter]
  · intro t w hcw hnot
    unfold extract_weight
    rw [hcw]
    unfold reconcile_weights
    dsimp only
    rw [show List.filter (fun w => decide (mkRat 9 10 ≤ w.confidence)) [w] = []
        from by simp [List.filter_cons, hnot]]
    rfl
  · intro t w0 w1 ws s0 ss hcw htot hsig
    unfold extract_weight
    rw [hcw] at htot hsig ⊢
    unfold reconcile_weights
    dsimp only
    rw [htot, hsig]
    rfl
  · intro t w0 w1 ws hcw htot hsig
    unfold extract_weight
    rw [hcw] at htot hsig ⊢
    unfold reconcile_weights
    dsimp only
    rw [htot, hsig]
    rfl

/-- C5 witness: the concrete input's collected candidates contain exactly one
explicit-total candidate, and rule (a) selects it. -/
theorem C5_weight_reconciliation_witness :
    extract_weight (str "890kg 65kg 950kg TOTAL= mas o menos 1900kg") =
      ⟨fmtKg (pymax1 (fun w => w.confidence)
          (⟨1900, str "total= mas o menos 1900kg", mkRat 9 10⟩ : WCand) []).value_kg,
       (pymax1 (fun w => w.confidence)
          (⟨1900, str "total= mas o menos 1900kg", mkRat 9 10⟩ : WCand) []).confidence,
       str "explicit_total", []⟩ :=
  C5_weight_reconciliation.2.1 (str "890kg 65kg 950kg TOTAL= mas o menos 1900kg")
    (⟨1900, str "total= mas o menos 1900kg", mkRat 9 10⟩ : WCand) [] (by decide)




theorem qmin_le_right (a b : ℚ) : qmin a b ≤ b := by
  unfold qmin
  split
  · exact le_refl b
  · linarith [show ¬(b < a) from ‹_›]

theorem qmin_eq_left (a b : ℚ) (h : a ≤ b) : qmin a b = a := by
  unfold qmin
  rw [if_neg (by linarith)]

theorem scan_fold_eq (tl : Str) (l : List LocEntry)
    (hmin : ∀ e ∈ l, specScore e = mkRat e.key.length 20) :
    ∀ acc : Option LocEntry × ℚ,
      l.foldl (dbScanStep tl) (acc.1.map locDisplay, acc.2) =
        ((l.foldl (specStep tl) acc).1.map locDisplay,
         (l.foldl (specStep tl) acc).2) := by
  induction l with
  | nil => intro acc; rfl
  | cons e es ih =>
    intro acc
    have he : specScore e = mkRat e.key.length 20 := hmin e (List.mem_cons_self _ _)
    have hes : ∀ x ∈ es, specScore x = mkRat x.key.length 20 :=
      fun x hx => hmin x (List.mem_cons_of_mem _ hx)
    have hstep : dbScanStep tl (acc.1.map locDisplay, acc.2) e
        = ((specStep tl acc e).1.map locDisplay, (specStep tl acc e).2) := by
      unfold dbScanStep specStep
      rw [← he]
      by_cases hsub : isSubstr e.key tl = true
      · rw [if_pos hsub]
        dsimp only
        by_cases hlt : acc.2 < specScore e
        · rw [if_pos hlt, if_pos (by rw [hsub, decide_eq_true hlt]; rfl)]
          rfl
        · rw [if_neg hlt, if_neg (by rw [hsub, decide_eq_false hlt]; simp)]
      · rw [if_neg hsub, if_neg (by
          rw [show isSubstr e.key tl = false from Bool.not_eq_true _ ▸ eq_false_of_ne_true hsub]
          simp)]
    rw [List.foldl_cons, List.foldl_cons, hstep]
    exact ih hes (specStep tl acc e)

theorem dbScan_eq_spec (t : Str) :
    dbScan (lowerStr t) = ((bestDbMatchSpec t).1.map locDisplay,
      (bestDbMatchSpec t).2) := by
  have hmin : ∀ e ∈ location_db, specScore e = mkRat e.key.length 20 := by decide
  exact scan_fold_eq (lowerStr t) location_db hmin (none, 0)

theorem specStep_mono (tl : Str) (acc : Option LocEntry × ℚ) (e : LocEntry) :
    acc.2 ≤ (specStep tl acc e).2 := by
  unfold specStep
  split
  · rename_i h
    simp only [Bool.and_eq_true, decide_eq_true_eq] at h
    exact le_of_lt h.2
  · exact le_refl _

theorem specFold_max (tl : Str) (l : List LocEntry) :
    ∀ acc : Option LocEntry × ℚ,
      (∀ e ∈ l, isSubstr e.key tl = true →
          specScore e ≤ (l.foldl (specStep tl) acc).2) ∧
        acc.2 ≤ (l.foldl (specStep tl) acc).2 := by
  induction l with
  | nil =>
    intro acc
    exact ⟨fun e he _ => absurd he (List.not_mem_nil e), le_refl _⟩
  | cons e es ih =>
    intro acc
    obtain ⟨ihmax, ihacc⟩ := ih (specStep tl acc e)
    rw [List.foldl_cons]
    constructor
    · intro x hx hsub
      rcases List.mem_cons.mp hx with rfl | hx'
      · -- the head entry: its score is at most the accumulated one
        refine le_trans ?_ ihacc
        unfold specStep
        by_cases hlt : acc.2 < specScore x
        · rw [if_pos (by rw [hsub, decide_eq_true hlt]; rfl)]
        · rw [if_neg (by rw [hsub, decide_eq_false hlt]; simp)]
          exact le_of_not_lt hlt
      · exact ihmax x hx' hsub
    · exact le_trans (specStep_mono tl acc e) ihacc

theorem specFold_first (tl : Str) (l : List LocEntry) :
    ∀ (acc : Option LocEntry × ℚ) (e : LocEntry) (c : ℚ),
      l.foldl (specStep tl) acc = (some e, c) →
      acc = (some e, c) ∨
        ∃ l1 l2, l = l1 ++ e :: l2 ∧ c = specScore e ∧
          isSubstr e.key tl = true ∧ acc.2 < c ∧
          ∀ e' ∈ l1, isSubstr e'.key tl = true → specScore e' < c := by
  induction l with
  | nil => intro acc e c h; exact Or.inl h
  | cons hd tl' ih =>
    intro acc e c h
    rw [List.foldl_cons] at h
    rcases ih (specStep tl acc hd) e c h with hacc' | ⟨l1, l2, hsplit, hc, hsub, hlt, hall⟩
    · -- the fold over the tail never replaced the accumulated state
      unfold specStep at hacc'
      split at hacc'
      · rename_i hcond
        simp only [Bool.and_eq_true, decide_eq_true_eq] at hcond
        cases hacc'
        exact Or.inr ⟨[], tl', rfl, rfl, hcond.1, hcond.2,
          fun e' he' _ => absurd he' (List.not_mem_nil e')⟩
      · exact Or.inl hacc'
    · -- the winner sits in the tail
      refine Or.inr ⟨hd :: l1, l2, by rw [hsplit]; rfl, hc, hsub, ?_, ?_⟩
      · exact lt_of_le_of_lt (specStep_mono tl acc hd) hlt
      · intro e' he' hsub'
        rcases List.mem_cons.mp he' with rfl | he''
        · -- the head was matched but later strictly beaten
          refine lt_of_le_of_lt ?_ hlt
          unfold specStep
          by_cases h2 : acc.2 < specScore e'
          · rw [if_pos (by rw [hsub', decide_eq_true h2]; rfl)]
          · rw [if_neg (by rw [hsub', decide_eq_false h2]; simp)]
            exact le_of_not_lt h2
        · exact hall e' he'' hsub'

/-- C6: the gazetteer step scores every entry whose key occurs
case-insensitively in the input as `min(len(key)/20, 0.9)`, retains the
highest-scoring entry with ties broken in favor of the first entry in table
order, and above the 0.3 threshold returns its `"City, Country"` display at
that confidence via `database_lookup`; in particular
`"envio desde valencia a santos"` resolves the origin to
`"Valencia, España"` at confidence 0.4. -/
theorem C6_gazetteer_lookup :
    (∀ (text : Str) (d : Bool) (e : LocEntry) (c : ℚ),
        bestDbMatchSpec text = (some e, c) → mkRat 3 10 < c →
        extract_location text d = ⟨locDisplay e, c, str "database_lookup", []⟩) ∧
    (∀ (text : Str) (e : LocEntry) (c : ℚ),
        bestDbMatchSpec text = (some e, c) →
        c = specScore e ∧ isSubstr e.key (lowerStr text) = true ∧
        (∃ l1 l2, location_db = l1 ++ e :: l2 ∧
          ∀ e' ∈ l1, isSubstr e'.key (lowerStr text) = true → specScore e' < c) ∧
        (∀ e' ∈ location_db, isSubstr e'.key (lowerStr text) = true →
          specScore e' ≤ c)) ∧
    extract_location (str "envio desde valencia a santos") false =
      ⟨str "Valencia, España", mkRat 2 5, str "database_lookup", []⟩ := by
  refine ⟨?_, ?_, by decide⟩
  · intro text d e c hspec h3
    have hc_eq : c = specScore e := by
      rcases specFold_first (lowerStr text) location_db (none, 0) e c hspec with
        habs | ⟨_, _, _, hc, _, _, _⟩
      · cases habs
      · exact hc
    have hc_le : c ≤ mkRat 9 10 := hc_eq ▸ qmin_le_right _ _
    unfold extract_location
    dsimp only
    rw [dbScan_eq_spec, hspec]
    simp only [Option.map]
    rw [if_pos h3, qmin_eq_left c (mkRat 9 10) hc_le]
  · intro text e c hspec
    rcases specFold_first (lowerStr text) location_db (none, 0) e c hspec with
      habs | ⟨l1, l2, hsplit, hc, hsub, _, hall⟩
    · cases habs
    · refine ⟨hc, hsub, ⟨l1, l2, hsplit, hall⟩, ?_⟩
      intro e' he' hsub'
      have := (specFold_max (lowerStr text) location_db (none, 0)).1 e' he' hsub'
      rw [show (List.foldl (specStep (lowerStr text)) (none, 0) location_db)
            = bestDbMatchSpec text from rfl, hspec] at this
      exact this

/-- C6 witness: on `"envio desde valencia a santos"` the specification-side
scan selects the `valencia` entry at score 0.4, above the threshold. -/
theorem C6_gazetteer_lookup_witness :
    extract_location (str "envio desde valencia a santos") false =
      ⟨locDisplay ⟨str "valencia", str "Valencia", str "España", str "city", true⟩,
       mkRat 2 5, str "database_lookup", []⟩ :=
  C6_gazetteer_lookup.1 (str "envio desde valencia a santos") false
    ⟨str "valencia", str "Valencia", str "España", str "city", true⟩ (mkRat 2 5)
    (by decide) (by decide)

/-- C7: the candidate-selection stage is asymmetric in its fallbacks: with an
LLM client, an erring call, a `"NONE"` reply or a reply failing the validator
all fall back to the highest-confidence candidate only above confidence 0.5
(else no name); with no client the highest-confidence candidate is returned
unconditionally. -/
theorem C7_fallback_asymmetry :
    (∀ (c0 : NameCandidate) (cs : List NameCandidate),
        llm_validate_candidates .errors (c0 :: cs) =
          (if mkRat 1 2 < (pymax1 (fun c => c.confidence) c0 cs).confidence
           then some (pymax1 (fun c => c.confidence) c0 cs).text else none)) ∧
    (∀ (c0 : NameCandidate) (cs : List NameCandidate) (s : Str),
        strip s = str "NONE" ∨ is_valid_name_candidate (strip s) = false →
        llm_validate_candidates (.reply s) (c0 :: cs) =
          (if mkRat 1 2 < (pymax1 (fun c => c.confidence) c0 cs).confidence
           then some (pymax1 (fun c => c.confidence) c0 cs).text else none)) ∧
    (∀ (c0 : NameCandidate) (cs : List NameCandidate),
        llm_validate_candidates .absent (c0 :: cs) =
          some (pymax1 (fun c => c.confidence) c0 cs).text) := by
  refine ⟨fun c0 cs => rfl, ?_, fun c0 cs => rfl⟩
  intro c0 cs s h
  have hred : llm_validate_candidates (.reply s) (c0 :: cs)
      = (if (!List.isEmpty (strip s) && strip s != str "NONE"
              && is_valid_name_candidate (strip s)) = true then some (strip s)
         else if mkRat 1 2 < (pymax1 (fun c => c.confidence) c0 cs).confidence
         then some (pymax1 (fun c => c.confidence) c0 cs).text else none) := rfl
  rw [hred]
  rcases h with h | h
  · rw [if_neg (by simp [h])]
  · rw [if_neg (by simp [h])]

/-- C7 witness: a single low-confidence candidate; a declining (`"NONE"`)
reply falls back to the 0.5-thresholded best candidate. -/
theorem C7_fallback_asymmetry_witness :
    llm_validate_candidates (.reply (str "NONE"))
        [⟨str "Ana Rey", mkRat 45 100, str "zone_regex", str "signature_saludos", []⟩]
      = (if mkRat 1 2 < (pymax1 (fun c => c.confidence)
            (⟨str "Ana Rey", mkRat 45 100, str "zone_regex", str "signature_saludos",
              []⟩ : NameCandidate) []).confidence
         then some (pymax1 (fun c => c.confidence)
            (⟨str "Ana Rey", mkRat 45 100, str "zone_regex", str "signature_saludos",
              []⟩ : NameCandidate) []).text
         else none) :=
  C7_fallback_asymmetry.2.1
    ⟨str "Ana Rey", mkRat 45 100, str "zone_regex", str "signature_saludos", []⟩ []
    (str "NONE") (Or.inl (by decide))

/-- C8: whenever the pipeline produces a non-empty name with an LLM client
present, the reported confidence is `min(best × 1.1, 1.0)` for the
highest-confidence *candidate* (independent of which name the LLM selected),
and the method tag is also derived from that best candidate. -/
theorem C8_llm_confidence_from_best (env : Env) (t : Str)
    (_hllm : env.nameLLM ≠ .absent)
    (hname : (extract_name env t).name ≠ []) :
    ∃ c0 cs, nameCandidatesOf env t = c0 :: cs ∧
      (extract_name env t).confidence =
        min ((pymax1 (fun c => c.confidence) c0 cs).confidence * mkRat 11 10) 1 ∧
      (extract_name env t).method =
        str "hybrid_" ++ (pymax1 (fun c => c.confidence) c0 cs).method := by
  unfold extract_name at hname ⊢
  dsimp only at hname ⊢
  by_cases hz : (detect_name_zones t).isEmpty = true
  · rw [if_pos hz] at hname
    exact absurd rfl hname
  · rw [if_neg hz] at hname ⊢
    cases hcs : extract_ner_candidates env.ner (detect_name_zones t) with
    | nil => rw [hcs] at hname; exact absurd rfl hname
    | cons c0 cs =>
      rw [hcs] at hname
      dsimp only at hname ⊢
      cases hval : llm_validate_candidates env.nameLLM (c0 :: cs) with
      | none => rw [hval] at hname; exact absurd rfl hname
      | some fin =>
        rw [hval] at hname
        dsimp only at hname ⊢
        by_cases hfin : fin.isEmpty = true
        · rw [if_pos hfin] at hname
          exact absurd rfl hname
        · rw [if_neg hfin] at hname ⊢
          refine ⟨c0, cs, hcs, ?_, rfl⟩
          exact qmin_eq_min _ _

/-- C8 witness: on `"saludos Ana Rey"` with a regex fallback candidate list
and an LLM reply `"Juan Perez"`, the pipeline reports the reply at the best
candidate's boosted confidence. -/
theorem C8_llm_confidence_from_best_witness :
    ∃ c0 cs,
      nameCandidatesOf ⟨.absent, none, .reply (str "Juan Perez")⟩
          (str "saludos Ana Rey") = c0 :: cs ∧
      (extract_name ⟨.absent, none, .reply (str "Juan Perez")⟩
          (str "saludos Ana Rey")).confidence =
        min ((pymax1 (fun c => c.confidence) c0 cs).confidence * mkRat 11 10) 1 ∧
      (extract_name ⟨.absent, none, .reply (str "Juan Perez")⟩
          (str "saludos Ana Rey")).method =
        str "hybrid_" ++ (pymax1 (fun c => c.confidence) c0 cs).method :=
  C8_llm_confidence_from_best ⟨.absent, none, .reply (str "Juan Perez")⟩
    (str "saludos Ana Rey") (by intro h; cases h) (by decide)
